import Mathlib

/-!
Shallow embedding of the genie-foundry generation pipeline
(`src/lib/generator.ts`, `src/lib/scaffold.ts`, `src/lib/orchestrator.ts`,
`src/app/api/genie/route.ts`) and proofs about it.

Conventions of the embedding:
* JavaScript strings are Lean `String`s (ASCII range; `toLowerCase` is
  modelled by `Char.toLower`, which agrees on ASCII).
* `Array.prototype.join(sep)` is modelled by `joinWith`.
* `path.join(a, b)` is modelled by `joinPath a b = a ++ "/" ++ b`; all path
  segments produced by the program are plain relative names without
  separators, so no normalisation is needed.
* The file system is modelled by the list of paths written (for writers) and
  by an abstract `stat : String → Bool` collaborator (for the orchestrator's
  artifact-existence check).
* `JSON.parse` is modelled by the executable `jsonParse` below; the host
  parser's error-message text is environment specific and is modelled by a
  fixed string wherever the source only forwards it.
-/

/-! ## Characters that the token rules make awkward to write literally -/

/-- The double-quote character. -/
def dquoteC : Char := Char.ofNat 34

/-- The single-quote character. -/
def squoteC : Char := Char.ofNat 39

/-- The backtick character. -/
def btickC : Char := Char.ofNat 96

/-! ## Naming utilities — `slugify` (scaffold.ts:16), `normalizeName`
(orchestrator.ts:61), `safeName` (generator.ts:26); all three share one body:
`value.toLowerCase().replace(/[^a-z0-9]+/g, "-").replace(/^-|-$/g, "")`. -/

/-- Characters kept by the slug regex `[a-z0-9]` (checked after lowercasing). -/
def isSlugChar (c : Char) : Bool :=
  ('a' ≤ c && c ≤ 'z') || ('0' ≤ c && c ≤ '9')

/-- Scanner for `replace(/[^a-z0-9]+/g, "-")`: a maximal run of non-slug
characters contributes one dash at its first character; the flag records
being inside such a run.  Never produces two adjacent dashes. -/
def collapseGo : List Char → Bool → List Char
  | [], _ => []
  | c :: rest, inRun =>
    if isSlugChar c then c :: collapseGo rest false
    else if inRun then collapseGo rest true
    else '-' :: collapseGo rest true

/-- `replace(/[^a-z0-9]+/g, "-")`: every maximal run of non-slug characters
becomes a single dash. -/
def collapseRuns (l : List Char) : List Char := collapseGo l false

/-- Drop one leading dash, as the `^-` alternative of `/^-|-$/g` does.  After
`collapseRuns` there is at most one leading dash, so dropping one is exact. -/
def dropLeadDash : List Char → List Char
  | '-' :: rest => rest
  | l => l

/-- Drop one trailing dash, as the `-$` alternative of `/^-|-$/g` does. -/
def dropTrailDash (l : List Char) : List Char :=
  (dropLeadDash l.reverse).reverse

/-- `slugify` from scaffold.ts: lowercase, collapse non-alphanumeric runs to a
single dash, trim one leading and one trailing dash. -/
def slugify (value : String) : String :=
  ⟨dropTrailDash (dropLeadDash (collapseRuns (value.data.map Char.toLower)))⟩

/-- `normalizeName` from orchestrator.ts — same body as `slugify`. -/
def normalizeName (name : String) : String :=
  ⟨dropTrailDash (dropLeadDash (collapseRuns (name.data.map Char.toLower)))⟩

/-- `safeName` from generator.ts — same body as `slugify`. -/
def safeName (value : String) : String :=
  ⟨dropTrailDash (dropLeadDash (collapseRuns (value.data.map Char.toLower)))⟩

/-! ## Generic JS helpers -/

/-- `Array.prototype.join(sep)`. -/
def joinWith (sep : String) : List String → String
  | [] => ""
  | [x] => x
  | x :: xs => x ++ sep ++ joinWith sep xs

/-- `path.join(a, b)` for the plain relative segments this program uses. -/
def joinPath (a b : String) : String := a ++ "/" ++ b

/-- `path.extname(p)`: the part of the basename from its last dot onwards;
empty for dotfiles, for basenames without a dot, and for `..`. -/
def extname (p : String) : String :=
  let base := (p.data.reverse.takeWhile (fun c => c ≠ '/')).reverse
  let afterDotRev := base.reverse.takeWhile (fun c => c ≠ '.')
  if base = ['.', '.'] then ""
  else if base.contains '.' then
    let dotIdx := base.length - afterDotRev.length - 1
    if dotIdx = 0 then "" else ⟨'.' :: afterDotRev.reverse⟩
  else ""

/-! ## Specification data model (the `Spec` type of generator.ts/scaffold.ts) -/

/-- A typed entity field. -/
structure SpecField where
  name : String
  type : String
  required : Bool
deriving DecidableEq

/-- An entity with its ordered fields. -/
structure SpecEntity where
  name : String
  fields : List SpecField
deriving DecidableEq

/-- A named workflow. -/
structure SpecWorkflow where
  name : String
  steps : List String
deriving DecidableEq

/-- An integration. -/
structure SpecIntegration where
  name : String
  purpose : String
deriving DecidableEq

/-- A page declaration. -/
structure SpecPage where
  name : String
  purpose : String
deriving DecidableEq

/-- The `Spec` shape shared by generator.ts and scaffold.ts. -/
structure Spec where
  name : String
  domain : String
  entities : List SpecEntity
  workflows : List SpecWorkflow
  integrations : List SpecIntegration
  pages : List SpecPage
deriving DecidableEq

/-! ## Schema Builder — `mapFieldType` and `buildSchema` (generator.ts:30,47) -/

/-- The `switch` of `mapFieldType`: `number` and `boolean` map to themselves,
`date`/`text`/`enum` and the default case map to `string`. -/
def mapFieldType (type : String) : String :=
  if type = "number" then "number"
  else if type = "boolean" then "boolean"
  else if type = "date" then "string"
  else if type = "text" then "string"
  else if type = "enum" then "string"
  else "string"

/-- JS object assignment `acc[k] = v` on an object represented as an
insertion-ordered association list: an existing key keeps its position and
gets the new value, a new key is appended. -/
def objInsert (acc : List (String × String)) (k v : String) :
    List (String × String) :=
  if acc.any (fun p => p.1 = k) then
    acc.map (fun p => if p.1 = k then (k, v) else p)
  else acc ++ [(k, v)]

/-- One element of `buildSchema`'s result: `{ name, schema: { type: "object",
properties, required } }`. -/
structure EntitySchema where
  name : String
  schemaType : String
  properties : List (String × String)
  required : List String
deriving DecidableEq

/-- `buildSchema` (generator.ts:47): per entity, the required-name list and a
properties object mapping each field name to its mapped type. -/
def buildSchema (spec : Spec) : List EntitySchema :=
  spec.entities.map fun entity =>
    { name := entity.name
      schemaType := "object"
      properties :=
        entity.fields.foldl
          (fun acc field => objInsert acc field.name (mapFieldType field.type)) []
      required := (entity.fields.filter (fun f => f.required)).map (fun f => f.name) }

/-! ## Content Validator — `validateCode` (generator.ts:242) -/

/-- The `pairs` record: for an opening bracket, its expected closer. -/
def bracketCloser (c : Char) : Option Char :=
  if c = '(' then some ')'
  else if c = '{' then some '}'
  else if c = '[' then some ']'
  else none

/-- Membership in `Object.values(pairs)`. -/
def isCloseBracket (c : Char) : Bool :=
  c = ')' || c = '}' || c = ']'

/-- The mismatch message `Mismatched token: expected ... but found ...`. -/
def mismatchMsg (expected : String) (found : Char) : String :=
  "Mismatched token: expected " ++ expected ++ " but found " ++ found.toString

/-- The character loop of `validateCode`: a stack of expected closers, a
current quote delimiter (if inside a string), and a one-shot escape flag that
is reset at each character.  Mirrors generator.ts:257-288 branch for branch. -/
def bracketScan : List Char → List Char → Option Char → Bool → Option String
  | [], stack, _, _ =>
    if stack.isEmpty then none else some "Unbalanced brackets detected"
  | c :: rest, stack, inString, escape =>
    if escape then bracketScan rest stack inString false
    else if c = '\\' then bracketScan rest stack inString true
    else
      match inString with
      | some q =>
        if c = q then bracketScan rest stack none false
        else bracketScan rest stack (some q) false
      | none =>
        if c = dquoteC || c = squoteC || c = btickC then
          bracketScan rest stack (some c) false
        else
          match bracketCloser c with
          | some closer => bracketScan rest (closer :: stack) none false
          | none =>
            if isCloseBracket c then
              match stack with
              | [] => some (mismatchMsg "none" c)
              | expected :: stack' =>
                if expected ≠ c then some (mismatchMsg expected.toString c)
                else bracketScan rest stack' none false
            else bracketScan rest stack none false

/-- `validateCode` needs a model of `JSON.parse`; `Json` is the shape of a
parsed JSON value.  A number is kept as its source lexeme (the claims never
compare numeric values, only parse success). -/
inductive Json where
  | null
  | bool (b : Bool)
  | num (lexeme : String)
  | str (s : String)
  | arr (items : List Json)
  | obj (fields : List (String × Json))

/-- JSON whitespace. -/
def isJsonWs (c : Char) : Bool :=
  c = ' ' || c = Char.ofNat 9 || c = Char.ofNat 10 || c = Char.ofNat 13

/-- Skip JSON whitespace. -/
def skipWs (l : List Char) : List Char := l.dropWhile isJsonWs

/-- ASCII decimal digit. -/
def isDigitC (c : Char) : Bool := '0' ≤ c && c ≤ '9'

/-- Hex digit value, for `\uXXXX` escapes. -/
def hexVal (c : Char) : Option Nat :=
  if '0' ≤ c && c ≤ '9' then some (c.toNat - 48)
  else if 'a' ≤ c && c ≤ 'f' then some (c.toNat - 87)
  else if 'A' ≤ c && c ≤ 'F' then some (c.toNat - 55)
  else none

/-- The single-character escapes of JSON strings. -/
def jsonEscapeChar (c : Char) : Option Char :=
  if c = dquoteC then some dquoteC
  else if c = '\\' then some '\\'
  else if c = '/' then some '/'
  else if c = 'b' then some (Char.ofNat 8)
  else if c = 'f' then some (Char.ofNat 12)
  else if c = 'n' then some (Char.ofNat 10)
  else if c = 'r' then some (Char.ofNat 13)
  else if c = 't' then some (Char.ofNat 9)
  else none

/-- Body of a JSON string, after the opening quote has been consumed.  A lone
surrogate from `\uXXXX` is not a Unicode scalar and is modelled by
`Char.ofNat`'s default.  Raw control characters are rejected, as in JSON. -/
def parseJStringGo : Nat → List Char → List Char → Option (String × List Char)
  | 0, _, _ => none
  | _, [], _ => none
  | fuel + 1, c :: rest, acc =>
    if c = dquoteC then some (⟨acc.reverse⟩, rest)
    else if c = '\\' then
      match rest with
      | [] => none
      | e :: rest2 =>
        match jsonEscapeChar e with
        | some ec => parseJStringGo fuel rest2 (ec :: acc)
        | none =>
          if e = 'u' then
            match rest2 with
            | h1 :: h2 :: h3 :: h4 :: rest3 =>
              match hexVal h1, hexVal h2, hexVal h3, hexVal h4 with
              | some a, some b, some c', some d =>
                parseJStringGo fuel rest3
                  (Char.ofNat (4096 * a + 256 * b + 16 * c' + d) :: acc)
              | _, _, _, _ => none
            | _ => none
          else none
    else if c.toNat < 32 then none
    else parseJStringGo fuel rest (c :: acc)

/-- A JSON string body with sufficient fuel. -/
def parseJString (l : List Char) : Option (String × List Char) :=
  parseJStringGo (l.length + 1) l []

/-- A JSON number lexeme `-?(0|[1-9][0-9]*)(\.[0-9]+)?([eE][+-]?[0-9]+)?`,
returned together with the unconsumed rest. -/
def parseJNumber (l : List Char) : Option (String × List Char) :=
  let (sign, l1) :=
    match l with
    | '-' :: rest => ((['-'] : List Char), rest)
    | _ => ([], l)
  let intPart? : Option (List Char × List Char) :=
    match l1 with
    | '0' :: rest => some (['0'], rest)
    | c :: _ =>
      if isDigitC c && c ≠ '0' then
        some (l1.takeWhile isDigitC, l1.dropWhile isDigitC)
      else none
    | [] => none
  match intPart? with
  | none => none
  | some (intPart, l2) =>
    let (fracPart, l3) :=
      match l2 with
      | '.' :: d :: rest =>
        if isDigitC d then
          ('.' :: (d :: rest).takeWhile isDigitC, (d :: rest).dropWhile isDigitC)
        else (([] : List Char), l2)
      | _ => ([], l2)
    let (expPart, l4) :=
      match l3 with
      | e :: rest =>
        if e = 'e' || e = 'E' then
          let (s, rest2) :=
            match rest with
            | '+' :: r => ((['+'] : List Char), r)
            | '-' :: r => ((['-'] : List Char), r)
            | _ => ([], rest)
          match rest2 with
          | d :: _ =>
            if isDigitC d then
              (e :: (s ++ rest2.takeWhile isDigitC), rest2.dropWhile isDigitC)
            else (([] : List Char), l3)
          | [] => ([], l3)
        else ([], l3)
      | [] => ([], l3)
    some (⟨sign ++ intPart ++ fracPart ++ expPart⟩, l4)

/- Recursive descent for JSON values; `parseJValue` parses one value,
`parseJArrayItems` the members of a non-empty array after `[`, and
`parseJObjectItems` the members of a non-empty object after the opening
brace.  Fuel strictly decreases on every call; `jsonParse` supplies enough
for any input. -/
mutual
def parseJValue : Nat → List Char → Option (Json × List Char)
  | 0, _ => none
  | fuel + 1, l =>
    match l with
    | 'n' :: 'u' :: 'l' :: 'l' :: rest => some (.null, rest)
    | 't' :: 'r' :: 'u' :: 'e' :: rest => some (.bool true, rest)
    | 'f' :: 'a' :: 'l' :: 's' :: 'e' :: rest => some (.bool false, rest)
    | c :: rest =>
      if c = dquoteC then
        match parseJString rest with
        | some (s, r) => some (.str s, r)
        | none => none
      else if c = '[' then
        match skipWs rest with
        | ']' :: r2 => some (.arr [], r2)
        | r1 => parseJArrayItems fuel r1 []
      else if c = '{' then
        match skipWs rest with
        | '}' :: r2 => some (.obj [], r2)
        | r1 => parseJObjectItems fuel r1 []
      else
        match parseJNumber (c :: rest) with
        | some (lx, r) => some (.num lx, r)
        | none => none
    | [] => none

def parseJArrayItems : Nat → List Char → List Json → Option (Json × List Char)
  | 0, _, _ => none
  | fuel + 1, l, acc =>
    match parseJValue fuel l with
    | none => none
    | some (v, rest) =>
      match skipWs rest with
      | ',' :: r2 => parseJArrayItems fuel (skipWs r2) (v :: acc)
      | ']' :: r2 => some (.arr (v :: acc).reverse, r2)
      | _ => none

def parseJObjectItems : Nat → List Char → List (String × Json) →
    Option (Json × List Char)
  | 0, _, _ => none
  | fuel + 1, l, acc =>
    match l with
    | c :: rest =>
      if c = dquoteC then
        match parseJString rest with
        | none => none
        | some (k, r1) =>
          match skipWs r1 with
          | ':' :: r2 =>
            match parseJValue fuel (skipWs r2) with
            | none => none
            | some (v, r3) =>
              match skipWs r3 with
              | ',' :: r4 => parseJObjectItems fuel (skipWs r4) ((k, v) :: acc)
              | '}' :: r4 => some (.obj ((k, v) :: acc).reverse, r4)
              | _ => none
          | _ => none
      else none
    | [] => none
end

/-- `JSON.parse`: one value surrounded by optional whitespace, nothing after
it.  Fuel `2 * length + 4` bounds the call depth of any parse. -/
def jsonParse (s : String) : Option Json :=
  match parseJValue (2 * s.length + 4) (skipWs s.data) with
  | some (v, rest) => if (skipWs rest).isEmpty then some v else none
  | none => none

/-- `validateCode` (generator.ts:242): a `.json` target must `JSON.parse`
(the host parser's message text is environment specific and modelled by a
fixed string); any other target goes through the bracket/quote scan. -/
def validateCode (content : String) (ext : String) : Option String :=
  if ext = ".json" then
    match jsonParse content with
    | some _ => none
    | none => some "Invalid JSON"
  else bracketScan content.data [] none false

/-! ## `JSON.stringify(value, null, 2)` — needed only to build the codegen
prompt text (generator.ts:313). -/

/-- Hex digit for string escapes. -/
def hexDigit (n : Nat) : Char :=
  if n < 10 then Char.ofNat (48 + n) else Char.ofNat (87 + n)

/-- Escape one character of a JSON string literal. -/
def escapeJChar (c : Char) : List Char :=
  if c = dquoteC then ['\\', dquoteC]
  else if c = '\\' then ['\\', '\\']
  else if c = Char.ofNat 8 then ['\\', 'b']
  else if c = Char.ofNat 12 then ['\\', 'f']
  else if c = Char.ofNat 10 then ['\\', 'n']
  else if c = Char.ofNat 13 then ['\\', 'r']
  else if c = Char.ofNat 9 then ['\\', 't']
  else if c.toNat < 32 then
    ['\\', 'u', '0', '0', hexDigit (c.toNat / 16), hexDigit (c.toNat % 16)]
  else [c]

/-- A quoted, escaped JSON string literal. -/
def jsonQuote (s : String) : String :=
  ⟨dquoteC :: (s.data.flatMap escapeJChar ++ [dquoteC])⟩

/-- `n` spaces. -/
def spaces (n : Nat) : String := ⟨List.replicate n ' '⟩

/- Pretty printer with two-space indentation, mirroring the output shape of
`JSON.stringify(v, null, 2)`. -/
mutual
def stringifyJson : Json → Nat → String
  | .null, _ => "null"
  | .bool true, _ => "true"
  | .bool false, _ => "false"
  | .num lx, _ => lx
  | .str s, _ => jsonQuote s
  | .arr [], _ => "[]"
  | .arr (x :: xs), ind =>
    "[\n" ++ joinWith ",\n" (stringifyJsonList (x :: xs) (ind + 2)) ++
      "\n" ++ spaces ind ++ "]"
  | .obj [], _ => "\x7b\x7d"
  | .obj (f :: fs), ind =>
    "\x7b\n" ++ joinWith ",\n" (stringifyJsonFields (f :: fs) (ind + 2)) ++
      "\n" ++ spaces ind ++ "\x7d"

def stringifyJsonList : List Json → Nat → List String
  | [], _ => []
  | x :: xs, ind => (spaces ind ++ stringifyJson x ind) :: stringifyJsonList xs ind

def stringifyJsonFields : List (String × Json) → Nat → List String
  | [], _ => []
  | (k, v) :: fs, ind =>
    (spaces ind ++ jsonQuote k ++ ": " ++ stringifyJson v ind) ::
      stringifyJsonFields fs ind
end

/-- The `Spec` value as a JSON value, field for field. -/
def specFieldJson (f : SpecField) : Json :=
  .obj [("name", .str f.name), ("type", .str f.type), ("required", .bool f.required)]

/-- One entity as JSON. -/
def specEntityJson (e : SpecEntity) : Json :=
  .obj [("name", .str e.name), ("fields", .arr (e.fields.map specFieldJson))]

/-- One workflow as JSON. -/
def specWorkflowJson (w : SpecWorkflow) : Json :=
  .obj [("name", .str w.name), ("steps", .arr (w.steps.map Json.str))]

/-- One integration as JSON. -/
def specIntegrationJson (i : SpecIntegration) : Json :=
  .obj [("name", .str i.name), ("purpose", .str i.purpose)]

/-- One page as JSON. -/
def specPageJson (p : SpecPage) : Json :=
  .obj [("name", .str p.name), ("purpose", .str p.purpose)]

/-- The whole specification as JSON, keys in the order of the `Spec` shape. -/
def specJsonValue (s : Spec) : Json :=
  .obj [("name", .str s.name), ("domain", .str s.domain),
        ("entities", .arr (s.entities.map specEntityJson)),
        ("workflows", .arr (s.workflows.map specWorkflowJson)),
        ("integrations", .arr (s.integrations.map specIntegrationJson)),
        ("pages", .arr (s.pages.map specPageJson))]

/-- `JSON.stringify(spec, null, 2)`. -/
def stringifySpec (s : Spec) : String := stringifyJson (specJsonValue s) 0

/-! ## Static Scaffold Generator — `generateScaffold` (generator.ts:85).
Only the artifact paths matter to the claims; the five files are written in
this order and the same list is returned. -/

/-- The five artifact paths of `generateScaffold`, in push order. -/
def generateScaffoldPaths (workspace : String) (_spec : Spec) : List String :=
  [joinPath (joinPath workspace "backend") "data-schema.json",
   joinPath (joinPath workspace "app") "ui-map.md",
   joinPath (joinPath workspace "infra") "integrations.json",
   joinPath (joinPath workspace "backend") "workflows.json",
   joinPath workspace "meta.json"]

/-! ## Template App Generator — `generateAppScaffold` (scaffold.ts:38) -/

/-- `appRoot` (scaffold.ts:39). -/
def scaffoldAppRoot (workspace : String) : String := joinPath workspace "app"

/-- `app/README.md` — written at scaffold.ts:56 but never pushed onto the
artifact list. -/
def scaffoldReadmePath (workspace : String) : String :=
  joinPath (scaffoldAppRoot workspace) "README.md"

/-- `appSpecPath` (scaffold.ts:58). -/
def scaffoldSpecJsonPath (workspace : String) : String :=
  joinPath (scaffoldAppRoot workspace) "spec.json"

/-- `uiMapPath` (scaffold.ts:61). -/
def scaffoldUiMapPath (workspace : String) : String :=
  joinPath (scaffoldAppRoot workspace) "ui-map.md"

/-- `pageDir` (scaffold.ts:64). -/
def scaffoldPagesDir (workspace : String) : String :=
  joinPath (scaffoldAppRoot workspace) "pages"

/-- The default two-page set substituted for an empty `pages` array
(scaffold.ts:42-45). -/
def defaultRoutes : List SpecPage :=
  [{ name := "Dashboard", purpose := "Overview and KPIs." },
   { name := "Items", purpose := "Manage records." }]

/-- `routes` (scaffold.ts:42): the declared pages, or the default set when
`spec.pages.length` is falsy (zero). -/
def scaffoldRoutes (spec : Spec) : List SpecPage :=
  if spec.pages.length = 0 then defaultRoutes else spec.pages

/-- One `app/pages/{slug}.md` per route (scaffold.ts:69-75). -/
def scaffoldPageFiles (workspace : String) (spec : Spec) : List String :=
  (scaffoldRoutes spec).map fun page =>
    joinPath (scaffoldPagesDir workspace) (slugify page.name ++ ".md")

/-- `apiDir` (scaffold.ts:77). -/
def scaffoldBackendDir (workspace : String) : String := joinPath workspace "backend"

/-- One `backend/{slug}.schema.json` per entity (scaffold.ts:80-90). -/
def scaffoldSchemaFiles (workspace : String) (spec : Spec) : List String :=
  spec.entities.map fun entity =>
    joinPath (scaffoldBackendDir workspace) (slugify entity.name ++ ".schema.json")

/-- `pageArtifacts` as of scaffold.ts:735: spec.json and ui-map.md, then the
page files, then the schema files. -/
def scaffoldPageArtifacts (workspace : String) (spec : Spec) : List String :=
  scaffoldSpecJsonPath workspace :: scaffoldUiMapPath workspace ::
    (scaffoldPageFiles workspace spec ++ scaffoldSchemaFiles workspace spec)

/-- `templateDir` (scaffold.ts:92). -/
def scaffoldTemplateDir (workspace : String) : String :=
  joinPath (scaffoldAppRoot workspace) "template"

/-- `template/app`. -/
def scaffoldTemplateAppDir (workspace : String) : String :=
  joinPath (scaffoldTemplateDir workspace) "app"

/-- The fifteen fixed template artifacts (scaffold.ts:408-424), in list
order. -/
def scaffoldFixedTemplates (workspace : String) : List String :=
  [joinPath (joinPath (scaffoldTemplateAppDir workspace) "dashboard") "page.tsx",
   joinPath (joinPath (scaffoldTemplateAppDir workspace) "records") "page.tsx",
   joinPath (joinPath (scaffoldTemplateAppDir workspace) "entities") "page.tsx",
   joinPath (joinPath (scaffoldTemplateAppDir workspace) "workflows") "page.tsx",
   joinPath (joinPath (scaffoldTemplateAppDir workspace) "integrations") "page.tsx",
   joinPath (joinPath (scaffoldTemplateAppDir workspace) "auth") "page.tsx",
   joinPath (joinPath (scaffoldTemplateAppDir workspace) "settings") "page.tsx",
   joinPath (joinPath (joinPath (scaffoldTemplateAppDir workspace) "api") "records") "route.ts",
   joinPath (joinPath (joinPath (joinPath (scaffoldTemplateAppDir workspace) "api") "records") "[id]") "route.ts",
   joinPath (joinPath (joinPath (scaffoldTemplateAppDir workspace) "api") "entities") "route.ts",
   joinPath (joinPath (joinPath (scaffoldTemplateAppDir workspace) "api") "workflows") "route.ts",
   joinPath (joinPath (joinPath (scaffoldTemplateAppDir workspace) "api") "integrations") "route.ts",
   joinPath (scaffoldTemplateAppDir workspace) "layout.tsx",
   joinPath (scaffoldTemplateDir workspace) "globals.css",
   joinPath (scaffoldTemplateDir workspace) "README.md"]

/-- `entityDir` for one entity (scaffold.ts:625). -/
def scaffoldEntityApiDir (workspace : String) (entity : SpecEntity) : String :=
  joinPath (joinPath (scaffoldTemplateAppDir workspace) "api") (slugify entity.name)

/-- The three per-entity template artifacts, in push order: list route,
detail route, entity page (scaffold.ts:659-732). -/
def scaffoldEntityTriple (workspace : String) (entity : SpecEntity) : List String :=
  [joinPath (scaffoldEntityApiDir workspace entity) "route.ts",
   joinPath (joinPath (scaffoldEntityApiDir workspace entity) "[id]") "route.ts",
   joinPath (joinPath (joinPath (scaffoldTemplateAppDir workspace) "entities")
     (slugify entity.name)) "page.tsx"]

/-- All per-entity template artifacts, in entity order. -/
def scaffoldEntityTemplates (workspace : String) (spec : Spec) : List String :=
  spec.entities.flatMap (scaffoldEntityTriple workspace)

/-- `templateArtifacts` as of scaffold.ts:735. -/
def scaffoldTemplateArtifacts (workspace : String) (spec : Spec) : List String :=
  scaffoldFixedTemplates workspace ++ scaffoldEntityTemplates workspace spec

/-- `pageArtifacts.concat(templateArtifacts)` (scaffold.ts:735): the artifact
list `generateAppScaffold` would return if every write succeeded.  The run
model below shows the function in fact rejects at the write of
`template/app/api/workflows/route.ts` (scaffold.ts:617) before reaching the
entity loop, so this value is never returned. -/
def generateAppScaffoldPaths (workspace : String) (spec : Spec) : List String :=
  scaffoldPageArtifacts workspace spec ++ scaffoldTemplateArtifacts workspace spec

/-! ### The file-system calls of `generateAppScaffold`, in source order

`fs.mkdir(d, { recursive: true })` creates `d` together with every missing
ancestor directory and never fails.  `fs.writeFile(p, ...)` creates no
directories: when the parent directory of `p` does not exist it rejects
with `ENOENT`, and since `generateAppScaffold` contains no try/catch the
rejection aborts the remaining calls and propagates to the caller. -/

/-- One file-system call made by `generateAppScaffold`. -/
inductive FsOp where
  | mkdir (d : String)
  | write (p : String)
deriving DecidableEq

/-- All prefixes of a path at `/` boundaries, outermost first and the full
path last: the directories `fs.mkdir(p, { recursive: true })` guarantees to
exist afterwards.  `acc` holds the characters already scanned, reversed. -/
def pathPrefixesGo : List Char → List Char → List String
  | [], acc => [⟨acc.reverse⟩]
  | c :: rest, acc =>
    if c = '/' then ⟨acc.reverse⟩ :: pathPrefixesGo rest ('/' :: acc)
    else pathPrefixesGo rest (c :: acc)

/-- The directories existing after `fs.mkdir(p, { recursive: true })`. -/
def pathAncestors (p : String) : List String := pathPrefixesGo p.data []

/-- The parent directory of a written path (everything before its last
slash), the directory `fs.writeFile` needs to exist. -/
def parentDir (p : String) : String :=
  ⟨((p.data.reverse.dropWhile (fun c => c ≠ '/')).drop 1).reverse⟩

/-- File-system state and outcome of a call sequence: the directories that
exist, the file paths written so far in order, and the pending rejection. -/
structure FsTrace where
  dirs : List String
  written : List String
  error : Option String

/-- Runs the calls in order: `mkdir` adds the directory and its ancestors,
`write` appends its path when the parent directory exists and otherwise
stops with the `ENOENT` rejection.  (The host error message also repeats
the path inside quotes; the fixed prefix followed by the path stands for
it.) -/
def runFsOps : List FsOp → List String → List String → FsTrace
  | [], dirs, written => { dirs := dirs, written := written, error := none }
  | .mkdir d :: rest, dirs, written =>
    runFsOps rest (dirs ++ pathAncestors d) written
  | .write p :: rest, dirs, written =>
    if parentDir p ∈ dirs then runFsOps rest dirs (written ++ [p])
    else { dirs := dirs, written := written,
           error := some ("ENOENT: no such file or directory, open " ++ p) }

/-- The twelve `fs.mkdir` calls of scaffold.ts:93-112.  No call here — or
anywhere else in the function — creates `template/app/api/workflows` or
`template/app/api/integrations`, although scaffold.ts:617-618 write route
files inside both. -/
def scaffoldTemplateMkdirs (workspace : String) : List FsOp :=
  [.mkdir (scaffoldTemplateAppDir workspace),
   .mkdir (joinPath (scaffoldTemplateAppDir workspace) "dashboard"),
   .mkdir (joinPath (scaffoldTemplateAppDir workspace) "records"),
   .mkdir (joinPath (scaffoldTemplateAppDir workspace) "entities"),
   .mkdir (joinPath (scaffoldTemplateAppDir workspace) "workflows"),
   .mkdir (joinPath (scaffoldTemplateAppDir workspace) "integrations"),
   .mkdir (joinPath (scaffoldTemplateAppDir workspace) "auth"),
   .mkdir (joinPath (scaffoldTemplateAppDir workspace) "settings"),
   .mkdir (joinPath (scaffoldTemplateAppDir workspace) "api"),
   .mkdir (joinPath (joinPath (scaffoldTemplateAppDir workspace) "api") "records"),
   .mkdir (joinPath (joinPath (joinPath (scaffoldTemplateAppDir workspace) "api") "records") "[id]"),
   .mkdir (joinPath (joinPath (scaffoldTemplateAppDir workspace) "api") "entities")]

/-- The six calls of one entity-loop iteration (scaffold.ts:623-733), in
source order: mkdir of the entity api dir and its `[id]` subdir, the two
route writes, mkdir of the entity page dir, the page write.  The loop is
never reached: the run fails at scaffold.ts:617, before it. -/
def scaffoldEntityOps (workspace : String) (entity : SpecEntity) : List FsOp :=
  [.mkdir (scaffoldEntityApiDir workspace entity),
   .mkdir (joinPath (scaffoldEntityApiDir workspace entity) "[id]"),
   .write (joinPath (scaffoldEntityApiDir workspace entity) "route.ts"),
   .write (joinPath (joinPath (scaffoldEntityApiDir workspace entity) "[id]") "route.ts"),
   .mkdir (joinPath (joinPath (scaffoldTemplateAppDir workspace) "entities")
     (slugify entity.name)),
   .write (joinPath (joinPath (joinPath (scaffoldTemplateAppDir workspace) "entities")
     (slugify entity.name)) "page.tsx")]

/-- Every file-system call `generateAppScaffold` makes, in source order
(scaffold.ts:40-733): mkdir of `app`, the three document writes, mkdir of
`app/pages`, the page writes, mkdir of `backend`, the schema writes, the
twelve template mkdirs, the fifteen fixed template writes, and the
per-entity calls. -/
def scaffoldOps (workspace : String) (spec : Spec) : List FsOp :=
  [.mkdir (scaffoldAppRoot workspace),
   .write (scaffoldReadmePath workspace),
   .write (scaffoldSpecJsonPath workspace),
   .write (scaffoldUiMapPath workspace),
   .mkdir (scaffoldPagesDir workspace)] ++
  (scaffoldRoutes spec).map (fun page =>
    .write (joinPath (scaffoldPagesDir workspace) (slugify page.name ++ ".md"))) ++
  [.mkdir (scaffoldBackendDir workspace)] ++
  spec.entities.map (fun entity =>
    .write (joinPath (scaffoldBackendDir workspace)
      (slugify entity.name ++ ".schema.json"))) ++
  scaffoldTemplateMkdirs workspace ++
  (scaffoldFixedTemplates workspace).map .write ++
  spec.entities.flatMap (scaffoldEntityOps workspace)

/-- The directories existing when scaffold.ts:617 writes the
`api/workflows` route: the ancestors of the fifteen directories passed to
`fs.mkdir` so far.  The per-entity directories of scaffold.ts:625-666 are
created only after this point. -/
def scaffoldDirsAtFailure (workspace : String) : List String :=
  pathAncestors (scaffoldAppRoot workspace) ++
  pathAncestors (scaffoldPagesDir workspace) ++
  pathAncestors (scaffoldBackendDir workspace) ++
  pathAncestors (scaffoldTemplateAppDir workspace) ++
  pathAncestors (joinPath (scaffoldTemplateAppDir workspace) "dashboard") ++
  pathAncestors (joinPath (scaffoldTemplateAppDir workspace) "records") ++
  pathAncestors (joinPath (scaffoldTemplateAppDir workspace) "entities") ++
  pathAncestors (joinPath (scaffoldTemplateAppDir workspace) "workflows") ++
  pathAncestors (joinPath (scaffoldTemplateAppDir workspace) "integrations") ++
  pathAncestors (joinPath (scaffoldTemplateAppDir workspace) "auth") ++
  pathAncestors (joinPath (scaffoldTemplateAppDir workspace) "settings") ++
  pathAncestors (joinPath (scaffoldTemplateAppDir workspace) "api") ++
  pathAncestors (joinPath (joinPath (scaffoldTemplateAppDir workspace) "api") "records") ++
  pathAncestors (joinPath (joinPath (joinPath (scaffoldTemplateAppDir workspace) "api") "records") "[id]") ++
  pathAncestors (joinPath (joinPath (scaffoldTemplateAppDir workspace) "api") "entities")

/-- The paths written before the failing call, in write order: README,
spec.json, ui-map.md, the page files, the schema files, and the first ten
fixed template files. -/
def scaffoldWrittenBeforeFailure (workspace : String) (spec : Spec) : List String :=
  scaffoldReadmePath workspace :: scaffoldSpecJsonPath workspace ::
    scaffoldUiMapPath workspace ::
    (scaffoldPageFiles workspace spec ++ scaffoldSchemaFiles workspace spec ++
      (scaffoldFixedTemplates workspace).take 10)

/-- What `generateAppScaffold` writes and returns or rejects with. -/
structure ScaffoldRun where
  written : List String
  result : Except String (List String)

/-- `generateAppScaffold` as a whole: it performs `scaffoldOps` on a file
system where nothing under `workspace` exists yet (the orchestrator
pre-creates only `workspace` with `app`, `backend` and `infra`, all of
which the function's own first mkdirs also create) and, were every call to
succeed, would return `generateAppScaffoldPaths` (scaffold.ts:735); a
write rejection propagates instead. -/
def generateAppScaffold (workspace : String) (spec : Spec) : ScaffoldRun :=
  let t := runFsOps (scaffoldOps workspace spec) [] []
  { written := t.written
    result :=
      match t.error with
      | some e => .error e
      | none => .ok (generateAppScaffoldPaths workspace spec) }

/-! ## LLM-Backed Codegen Engine — `generateFileWithLLM` (generator.ts:297).
The model collaborator is an abstract `complete : String → String` from the
user prompt to the raw `output_text` (the system prompt and response format
are fixed constants and do not vary between calls). -/

/-- One codegen target (generator.ts:143). -/
structure CodegenTarget where
  path : String
  description : String
  kind : String

/-- `payload.content ?? ""` after `JSON.parse(response.output_text ?? "{}")`
(generator.ts:334-339).  A missing `content` key and a JSON `null` both
become the empty string; the enforced response format (`CODEGEN_SCHEMA`,
`content: string`) rules out other value shapes, so they also map to the
default here.  For duplicate keys `JSON.parse` keeps the last one; the
targets of this program never produce duplicates. -/
def payloadContent (payload : Json) : String :=
  match payload with
  | .obj fields =>
    match fields.lookup "content" with
    | some (.str s) => s
    | _ => ""
  | _ => ""

/-- The `prompt` array of generator.ts:305-318, with the retry line appended
when an `errorMessage` is carried. -/
def buildCodegenPromptLines (spec : Spec) (target : CodegenTarget)
    (errorMessage : Option String) : List String :=
  ["Project: " ++ spec.name,
   "Domain: " ++ spec.domain,
   "Entities: " ++ joinWith ", " (spec.entities.map (fun e => e.name)),
   "Workflows: " ++ joinWith ", " (spec.workflows.map (fun w => w.name)),
   "Integrations: " ++ joinWith ", " (spec.integrations.map (fun i => i.name)),
   "Task: Generate " ++ target.kind ++ " file at " ++ target.path,
   "Description: " ++ target.description,
   "Spec (JSON): " ++ stringifySpec spec] ++
  (match errorMessage with
   | some m => ["Fix validation error: " ++ m]
   | none => [])

/-- `prompt.join("\n")` (generator.ts:324). -/
def buildCodegenPrompt (spec : Spec) (target : CodegenTarget)
    (errorMessage : Option String) : String :=
  joinWith "\n" (buildCodegenPromptLines spec target errorMessage)

/-- What one `generateFileWithLLM` call did: the user prompts sent to the
model, the `(path, content)` writes performed, and the returned full path or
the propagated error. -/
structure LLMTrace where
  prompts : List String
  written : List (String × String)
  result : Except String String

/-- `generateFileWithLLM` (generator.ts:297-357).  An unparsable response
makes the bare `JSON.parse` throw, rejecting the promise (the host's
`SyntaxError` message is modelled by a fixed string).  A validation failure
on attempt 1 retries once with the message carried into the prompt; the
messages `validateCode` produces are never empty, so `Option.isSome` models
the JS truthiness test.  Otherwise the last content is written to the target
path and that full path returned. -/
def generateFileWithLLM (complete : String → String) (spec : Spec)
    (target : CodegenTarget) (outputRoot : String) (attempt : Nat)
    (errorMessage : Option String) : LLMTrace :=
  let prompt := buildCodegenPrompt spec target errorMessage
  let raw := complete prompt
  match jsonParse raw with
  | none => { prompts := [prompt], written := [], result := .error "Unexpected token in JSON" }
  | some payload =>
    let content := payloadContent payload
    let ext := extname target.path
    match validateCode content ext with
    | some validation =>
      if _h : attempt < 2 then
        let sub := generateFileWithLLM complete spec target outputRoot
          (attempt + 1) (some validation)
        { prompts := prompt :: sub.prompts, written := sub.written,
          result := sub.result }
      else
        let fullPath := joinPath outputRoot target.path
        { prompts := [prompt], written := [(fullPath, content)],
          result := .ok fullPath }
    | none =>
      let fullPath := joinPath outputRoot target.path
      { prompts := [prompt], written := [(fullPath, content)],
        result := .ok fullPath }
termination_by 2 - attempt
decreasing_by omega

/-! ## Defensive parsing in the route handler — `safeJsonParse`
(route.ts:211) and the spec fallback (route.ts:183,288). -/

/-- Index of the first occurrence of a character. -/
def firstIndexOfChar (c : Char) (l : List Char) : Option Nat :=
  l.findIdx? (fun d => d = c)

/-- Index of the last occurrence of a character. -/
def lastIndexOfChar (c : Char) (l : List Char) : Option Nat :=
  match (l.reverse.findIdx? (fun d => d = c)) with
  | some i => some (l.length - 1 - i)
  | none => none

/-- The leftmost match of the greedy regex `/\{[\s\S]*\}/`: it starts at the
first opening brace that still has a closing brace after it — which, when the
text has braces at all, is the first opening brace before the last closing
brace — and extends to that last closing brace. -/
def braceSpan (text : String) : Option String :=
  match firstIndexOfChar '{' text.data, lastIndexOfChar '}' text.data with
  | some i, some j =>
    if i < j then some ⟨(text.data.drop i).take (j - i + 1)⟩ else none
  | _, _ => none

/-- `safeJsonParse` (route.ts:211-223): direct parse, then parse of the
extracted brace span, then `null`. -/
def safeJsonParse (text : String) : Option Json :=
  match jsonParse text with
  | some v => some v
  | none =>
    match braceSpan text with
    | none => none
    | some m => jsonParse m

/-- `buildSpecFallback()` (route.ts:183-209) as the JSON value it
serializes to. -/
def buildSpecFallback : Json :=
  .obj
    [("entities", .arr
        [.obj [("name", .str "Item"),
               ("fields", .arr
                 [.obj [("name", .str "name"), ("type", .str "string"),
                        ("required", .bool true)],
                  .obj [("name", .str "status"), ("type", .str "enum"),
                        ("required", .bool true)],
                  .obj [("name", .str "notes"), ("type", .str "text"),
                        ("required", .bool false)]])]]),
     ("workflows", .arr
        [.obj [("name", .str "Intake"),
               ("steps", .arr [.str "Create item", .str "Assign owner",
                               .str "Track status"])]]),
     ("integrations", .arr
        [.obj [("name", .str "Email"),
               ("purpose", .str "Send notifications on status change.")]]),
     ("pages", .arr
        [.obj [("name", .str "Dashboard"),
               ("purpose", .str "Overview of KPIs and status.")],
         .obj [("name", .str "Items"),
               ("purpose", .str "Manage items and details.")]])]

/-- route.ts:288-290: `safeJsonParse(specResponse.output_text ?? "") ??
buildSpecFallback()`. -/
def resolveSpecJson (rawText : String) : Json :=
  (safeJsonParse rawText).getD buildSpecFallback

/-! ## Run Orchestrator — `runOrchestrator` (orchestrator.ts:65) and
`validateArtifacts` (orchestrator.ts:222) -/

/-- `validateArtifacts`: stat every path (concurrently in the source; the
results are position-independent), collect the failures, and either succeed
or throw one aggregate error naming every missing path. -/
def validateArtifacts (stat : String → Bool) (paths : List String) :
    Except String Unit :=
  let missing := paths.filter (fun p => !stat p)
  if missing.isEmpty then .ok ()
  else .error ("Missing generated artifacts: " ++ joinWith ", " missing)

/-- A persisted step record: name fixed at creation, plus a status. -/
structure StepRec where
  name : String
  status : String
deriving DecidableEq

/-- A persisted run record. -/
structure RunRec where
  status : String
  steps : List StepRec
deriving DecidableEq

/-- The body of the genie result handed to the orchestrator (its `spec`
field). -/
structure SpecBody where
  entities : List SpecEntity
  workflows : List SpecWorkflow
  integrations : List SpecIntegration
  pages : List SpecPage

/-- The `GenieResult` input of `runOrchestrator` (orchestrator.ts:38). -/
structure GenieResult where
  summary : String
  domain : String
  stack : List String
  plan : List String
  deliverables : List String
  spec : SpecBody

/-- The expanded spec object of orchestrator.ts:121-139, restricted to the
`Spec` shape consumed by the generators (`name := summary`,
`domain := domain`, the four spec lists); the added `constraints` and
`acceptanceCriteria` keys are extra JSON content no generator reads. -/
def specOfResult (result : GenieResult) : Spec :=
  { name := result.summary
    domain := result.domain
    entities := result.spec.entities
    workflows := result.spec.workflows
    integrations := result.spec.integrations
    pages := result.spec.pages }

/-- The successful return value of `runOrchestrator` (orchestrator.ts:55). -/
structure OrchestratorOutput where
  buildId : String
  runId : String
  manifestPath : String
deriving DecidableEq

/-- What one orchestration did: the run record as created and as finally
updated, the workspace, the artifact records appended to the store (type,
path), the paths passed to `validateArtifacts`, and the outcome. -/
structure OrchTrace where
  runInitial : RunRec
  run : RunRec
  workspace : String
  artifacts : List (String × String)
  validated : List String
  outcome : Except String OrchestratorOutput

/-- The workspace directory (orchestrator.ts:85-89):
`{cwd}/generated/{normalizeName(summary) || buildId}`. -/
def orchWorkspace (cwd buildId : String) (result : GenieResult) : String :=
  joinPath (joinPath cwd "generated")
    (if normalizeName result.summary = "" then buildId
     else normalizeName result.summary)

/-- The artifact-record list appended to the store, in creation order
(orchestrator.ts:113-174): the manifest, then spec and readme (one
`createMany`), then one `generated` record per static-scaffold path, then one
`app` record per template-scaffold path. -/
def orchArtifactRecords (ws : String) (spec : Spec) : List (String × String) :=
  ("manifest", joinPath ws "manifest.json") ::
    ("spec", joinPath ws "app-spec.json") ::
    ("readme", joinPath ws "README.md") ::
    ((generateScaffoldPaths ws spec).map (fun p => ("generated", p)) ++
      (generateAppScaffoldPaths ws spec).map (fun p => ("app", p)))

/-- The list handed to `validateArtifacts` (orchestrator.ts:176-181):
`[manifestPath, specPath, ...generatedArtifacts, ...appArtifacts]`.  The
readme path is recorded as an artifact but is not in this list. -/
def orchValidatedPaths (ws : String) (spec : Spec) : List String :=
  joinPath ws "manifest.json" :: joinPath ws "app-spec.json" ::
    (generateScaffoldPaths ws spec ++ generateAppScaffoldPaths ws spec)

/-- `runOrchestrator` (orchestrator.ts:65-220).  Collaborators: the store
(`prisma`) is modelled by the record fields of the trace and the generated
`runId`; directory creation and file writes succeed (their contents are not
claim-relevant); `fs.stat` at verification time is the abstract `stat`; the
`npm run verify:generated` gate is the abstract `extVerifyOk`.  The `catch`
bulk-fails the run and all steps and re-raises the original error, which the
trace records as the `outcome`; nothing runs after the terminal update. -/
def runOrchestrator (cwd buildId runId problem : String) (result : GenieResult)
    (stat : String → Bool) (extVerifyOk : Bool) : OrchTrace :=
  let runInitial : RunRec :=
    { status := "running"
      steps := result.plan.map (fun step => { name := step, status := "pending" }) }
  let workspace := orchWorkspace cwd buildId result
  let spec := specOfResult result
  let failedRun : RunRec :=
    { status := "failed"
      steps := runInitial.steps.map (fun st => { name := st.name, status := "failed" }) }
  let final : RunRec × Except String OrchestratorOutput :=
    match validateArtifacts stat (orchValidatedPaths workspace spec) with
    | .error e => (failedRun, .error e)
    | .ok _ =>
      if extVerifyOk then
        ({ status := "ready"
           steps := runInitial.steps.map
             (fun st => { name := st.name, status := "completed" }) },
         .ok { buildId := buildId, runId := runId,
               manifestPath := joinPath workspace "manifest.json" })
      else (failedRun, .error "Command failed: npm run verify:generated")
  { runInitial := runInitial, run := final.1, workspace := workspace,
    artifacts := orchArtifactRecords workspace spec,
    validated := orchValidatedPaths workspace spec, outcome := final.2 }


/-! ## Concrete demonstration inputs used by witnesses and counterexamples -/

/-- A demonstration page. -/
def demoPage : SpecPage := { name := "Home", purpose := "Landing." }

/-- A demonstration required number field. -/
def demoField : SpecField := { name := "amount", type := "number", required := true }

/-- A demonstration optional text field. -/
def demoField2 : SpecField := { name := "note", type := "text", required := false }

/-- A demonstration entity with two fields. -/
def demoEntity : SpecEntity := { name := "Invoice", fields := [demoField, demoField2] }

/-- A specification with zero entities and one page. -/
def specZeroEntities : Spec :=
  { name := "Demo App", domain := "internal-tools", entities := [],
    workflows := [], integrations := [], pages := [demoPage] }

/-- The same specification with one entity. -/
def specOneEntity : Spec :=
  { name := "Demo App", domain := "internal-tools", entities := [demoEntity],
    workflows := [], integrations := [], pages := [demoPage] }

/-- A specification with an empty `pages` array. -/
def specEmptyPages : Spec :=
  { name := "Demo App", domain := "internal-tools", entities := [demoEntity],
    workflows := [], integrations := [], pages := [] }

/-- A demonstration genie result with the three-step plan of the spec's
lifecycle test. -/
def demoResult : GenieResult :=
  { summary := "Demo App", domain := "internal-tools", stack := ["Next.js"],
    plan := ["a", "b", "c"], deliverables := ["app"],
    spec := { entities := [demoEntity], workflows := [], integrations := [],
              pages := [demoPage] } }

/-- The same genie result with a summary that slugifies to the empty
string. -/
def demoResultNoSlug : GenieResult :=
  { summary := "!!!", domain := "internal-tools", stack := ["Next.js"],
    plan := ["a", "b", "c"], deliverables := ["app"],
    spec := { entities := [demoEntity], workflows := [], integrations := [],
              pages := [demoPage] } }

/-- A `.json` codegen target. -/
def demoTargetJson : CodegenTarget :=
  { path := "app/config.json", description := "Config file for the app.",
    kind := "config" }

/-- A model collaborator stub that always returns a well-formed response
envelope whose `content` is invalid JSON. -/
def invalidContentStub : String → String :=
  fun _ => "\x7b\"path\":\"app/config.json\",\"content\":\"not-json\"\x7d"

/-- A model collaborator stub whose raw response is not parsable JSON at
all. -/
def unparsableStub : String → String := fun _ => "definitely not json"

/-! ## Spec-side characterization of the slug transform.  The claim describes
`slugify` as "lowercase, collapse every run of non-alphanumerics to a single
dash, trim leading/trailing dashes"; an equivalent independent formulation is
"the maximal alphanumeric runs of the lowercased input, joined by single
dashes".  `slugSpecModel` below follows that wording and is proved equal to
the transcribed implementation. -/

/-- The maximal runs of slug characters of a list; `acc` holds the reversed
current run. -/
def slugRunsGo : List Char → List Char → List (List Char)
  | [], acc => if acc.isEmpty then [] else [acc.reverse]
  | c :: rest, acc =>
    if isSlugChar c then slugRunsGo rest (c :: acc)
    else if acc.isEmpty then slugRunsGo rest []
    else acc.reverse :: slugRunsGo rest []

/-- Runs joined by single dashes. -/
def dashJoin : List (List Char) → List Char
  | [] => []
  | [r] => r
  | r :: rs => r ++ '-' :: dashJoin rs

/-- The spec-side slug: maximal alphanumeric runs of the lowercased input,
joined by single dashes. -/
def slugSpecModel (s : String) : String :=
  ⟨dashJoin (slugRunsGo (s.data.map Char.toLower) [])⟩

/-- The dangling dash `collapseRuns` leaves when the input ends in a
non-alphanumeric run (removed afterwards by the trim). -/
def tailDash (l : List Char) : List Char :=
  match l.getLast? with
  | none => []
  | some c => if isSlugChar c then [] else ['-']

/-! ## General lemmas about the embedded helpers -/

/-- Joining distinct tails onto the same directory gives distinct paths. -/
theorem joinPath_right_inj {w x y : String} : joinPath w x = joinPath w y ↔ x = y := by
  constructor
  · intro h
    have hd := congrArg String.data h
    simp only [joinPath, String.data_append] at hd
    exact String.ext (List.append_cancel_left hd)
  · intro h; rw [h]

/-- `path.join` is associative in this embedding. -/
theorem joinPath_assoc (a b c : String) :
    joinPath (joinPath a b) c = joinPath a (joinPath b c) := by
  simp [joinPath, String.append_assoc]

/-- `path.join` at the character level. -/
theorem data_joinPath (a b : String) :
    (joinPath a b).data = a.data ++ '/' :: b.data := by
  have hs : ("/" : String).data = ['/'] := rfl
  simp [joinPath, String.data_append, hs]

/-- `dropWhile` skips over a whole block that satisfies the predicate. -/
theorem dropWhile_append_of_all {p : Char → Bool} :
    ∀ (l m : List Char), (∀ c ∈ l, p c = true) →
      List.dropWhile p (l ++ m) = List.dropWhile p m
  | [], _, _ => rfl
  | c :: rest, m, h => by
    have hc : p c = true := h c (List.mem_cons_self c rest)
    rw [List.cons_append, List.dropWhile_cons, if_pos hc]
    exact dropWhile_append_of_all rest m (fun d hd => h d (List.mem_cons_of_mem _ hd))

/-- The parent of `path.join(dir, name)` is `dir` when `name` is
slash-free. -/
theorem parentDir_join (a b : String) (hb : '/' ∉ b.data) :
    parentDir (joinPath a b) = a := by
  have hrev : (joinPath a b).data.reverse = b.data.reverse ++ '/' :: a.data.reverse := by
    rw [data_joinPath]
    simp
  have hall : ∀ c ∈ b.data.reverse, (decide (c ≠ '/')) = true := by
    intro c hc
    simp only [decide_eq_true_eq]
    intro hcc
    subst hcc
    exact hb (List.mem_reverse.mp hc)
  unfold parentDir
  rw [hrev, dropWhile_append_of_all _ _ hall, List.dropWhile_cons,
    if_neg (by simp)]
  simp

/-- `pathPrefixesGo` always records the full accumulated path. -/
theorem full_mem_pathPrefixesGo :
    ∀ (l acc : List Char), (⟨acc.reverse ++ l⟩ : String) ∈ pathPrefixesGo l acc
  | [], acc => by simp [pathPrefixesGo]
  | c :: rest, acc => by
    by_cases hc : c = '/'
    · subst hc
      have h := full_mem_pathPrefixesGo rest ('/' :: acc)
      rw [List.reverse_cons, List.append_assoc] at h
      simp only [pathPrefixesGo, if_pos rfl]
      exact List.mem_cons_of_mem _ h
    · have h := full_mem_pathPrefixesGo rest (c :: acc)
      rw [List.reverse_cons, List.append_assoc] at h
      simp only [pathPrefixesGo, if_neg hc]
      exact h

/-- A directory passed to `fs.mkdir` exists afterwards. -/
theorem self_mem_pathAncestors (p : String) : p ∈ pathAncestors p := by
  have h := full_mem_pathPrefixesGo p.data []
  simpa [pathAncestors] using h

/-- Every member of `pathPrefixesGo l acc` is the accumulator followed by a
prefix of `l` that is cut at the end of `l` or right before a slash. -/
theorem mem_pathPrefixesGo :
    ∀ (l acc : List Char) (q : String), q ∈ pathPrefixesGo l acc →
      ∃ l1 l2, l = l1 ++ l2 ∧ q.data = acc.reverse ++ l1 ∧
        (l2 = [] ∨ ∃ l3, l2 = '/' :: l3)
  | [], acc, q => by
    intro h
    simp only [pathPrefixesGo, List.mem_singleton] at h
    exact ⟨[], [], by simp, by simp [h], Or.inl rfl⟩
  | c :: rest, acc, q => by
    intro h
    by_cases hc : c = '/'
    · subst hc
      rw [show pathPrefixesGo ('/' :: rest) acc =
          (⟨acc.reverse⟩ : String) :: pathPrefixesGo rest ('/' :: acc) from by
        simp [pathPrefixesGo]] at h
      rcases List.mem_cons.mp h with h1 | h2
      · exact ⟨[], '/' :: rest, rfl, by simp [h1], Or.inr ⟨rest, rfl⟩⟩
      · obtain ⟨l1, l2, hs, hd, hcase⟩ := mem_pathPrefixesGo rest ('/' :: acc) q h2
        refine ⟨'/' :: l1, l2, by simp [hs], ?_, hcase⟩
        rw [hd, List.reverse_cons, List.append_assoc]
        rfl
    · rw [show pathPrefixesGo (c :: rest) acc =
          pathPrefixesGo rest (c :: acc) from by simp [pathPrefixesGo, hc]] at h
      obtain ⟨l1, l2, hs, hd, hcase⟩ := mem_pathPrefixesGo rest (c :: acc) q h
      refine ⟨c :: l1, l2, by simp [hs], ?_, hcase⟩
      rw [hd, List.reverse_cons, List.append_assoc]
      rfl

/-- `x` only continues past a slash into `t ++ '/' :: _` when `t ++ "/"`
is a prefix of `x`. -/
theorem ne_append_slash (t x : List Char)
    (h : ¬ (t ++ ['/']) <+: x) : ∀ l3 : List Char, x ≠ t ++ '/' :: l3 := by
  intro l3 he
  refine h ⟨l3, ?_⟩
  rw [he, List.append_assoc]
  rfl

/-- A path `w/t` is none of the directories `fs.mkdir(w/x, recursive)`
creates when `t` is neither `x` itself nor a slash-terminated prefix of
`x`. -/
theorem not_ancestor_of_join (w t x : String)
    (hne : x.data ≠ t.data)
    (hpre : ∀ l3 : List Char, x.data ≠ t.data ++ '/' :: l3) :
    joinPath w t ∉ pathAncestors (joinPath w x) := by
  intro hmem
  obtain ⟨l1, l2, hs, hd, hcase⟩ := mem_pathPrefixesGo _ _ _ hmem
  rw [List.reverse_nil, List.nil_append, data_joinPath] at hd
  rw [data_joinPath, ← hd] at hs
  rcases hcase with rfl | ⟨l3, rfl⟩
  · rw [List.append_nil] at hs
    have h2 := List.append_cancel_left hs
    rw [List.cons.injEq] at h2
    exact hne h2.2
  · rw [List.append_assoc] at hs
    have h2 := List.append_cancel_left hs
    rw [List.cons_append, List.cons.injEq] at h2
    exact hpre l3 h2.2

/-- A successfully completed prefix of calls composes with the rest. -/
theorem runFsOps_append_ok :
    ∀ (ops1 ops2 : List FsOp) (dirs written dirs1 written1 : List String),
      runFsOps ops1 dirs written =
        { dirs := dirs1, written := written1, error := none } →
      runFsOps (ops1 ++ ops2) dirs written = runFsOps ops2 dirs1 written1
  | [], ops2, dirs, written, dirs1, written1 => by
    intro h
    simp only [runFsOps, FsTrace.mk.injEq] at h
    rw [List.nil_append, h.1, h.2.1]
  | .mkdir d :: rest, ops2, dirs, written, dirs1, written1 => by
    intro h
    exact runFsOps_append_ok rest ops2 (dirs ++ pathAncestors d) written dirs1 written1 h
  | .write p :: rest, ops2, dirs, written, dirs1, written1 => by
    intro h
    by_cases hp : parentDir p ∈ dirs
    · have hstep : runFsOps (FsOp.write p :: rest) dirs written =
          runFsOps rest dirs (written ++ [p]) := by
        simp only [runFsOps]
        rw [if_pos hp]
      rw [hstep] at h
      have hstep2 : runFsOps ((FsOp.write p :: rest) ++ ops2) dirs written =
          runFsOps (rest ++ ops2) dirs (written ++ [p]) := by
        rw [List.cons_append]
        simp only [runFsOps]
        rw [if_pos hp]
      rw [hstep2]
      exact runFsOps_append_ok rest ops2 dirs (written ++ [p]) dirs1 written1 h
    · exfalso
      have hstep : runFsOps (FsOp.write p :: rest) dirs written =
          { dirs := dirs, written := written,
            error := some ("ENOENT: no such file or directory, open " ++ p) } := by
        simp only [runFsOps]
        rw [if_neg hp]
      rw [hstep] at h
      simp only [FsTrace.mk.injEq] at h
      exact Option.some_ne_none _ h.2.2

/-- A block of writes whose parent directories all exist appends the paths
in order. -/
theorem runFsOps_writes_ok :
    ∀ (ps dirs written : List String),
      (∀ p ∈ ps, parentDir p ∈ dirs) →
      runFsOps (ps.map FsOp.write) dirs written =
        { dirs := dirs, written := written ++ ps, error := none }
  | [], dirs, written, _ => by simp [runFsOps]
  | p :: rest, dirs, written, h => by
    have hp : parentDir p ∈ dirs := h p (List.mem_cons_self p rest)
    rw [List.map_cons]
    have hstep : runFsOps (FsOp.write p :: rest.map FsOp.write) dirs written =
        runFsOps (rest.map FsOp.write) dirs (written ++ [p]) := by
      simp only [runFsOps]
      rw [if_pos hp]
    rw [hstep,
      runFsOps_writes_ok rest dirs (written ++ [p])
        (fun q hq => h q (List.mem_cons_of_mem _ hq)),
      List.append_assoc]
    rfl

/-- Dropping a leading dash yields a subset. -/
theorem dropLeadDash_subset : ∀ (l : List Char), dropLeadDash l ⊆ l := by
  intro l
  unfold dropLeadDash
  split
  · exact List.subset_cons_self _ _
  · exact fun c hc => hc

/-- Dropping a trailing dash yields a subset. -/
theorem dropTrailDash_subset (l : List Char) : dropTrailDash l ⊆ l := by
  intro c hc
  unfold dropTrailDash at hc
  rw [List.mem_reverse] at hc
  exact List.mem_reverse.mp (dropLeadDash_subset _ hc)

/-- The collapse scanner emits only dashes and slug characters. -/
theorem collapseGo_chars :
    ∀ (l : List Char) (b : Bool) {c : Char}, c ∈ collapseGo l b →
      c = '-' ∨ isSlugChar c = true
  | [], _, c => by intro h; simp [collapseGo] at h
  | a :: rest, b, c => by
    intro h
    by_cases ha : isSlugChar a
    · rw [show collapseGo (a :: rest) b = a :: collapseGo rest false from by
        simp [collapseGo, ha]] at h
      rcases List.mem_cons.mp h with rfl | h2
      · exact Or.inr ha
      · exact collapseGo_chars rest false h2
    · cases b with
      | true =>
        rw [show collapseGo (a :: rest) true = collapseGo rest true from by
          simp [collapseGo, ha]] at h
        exact collapseGo_chars rest true h
      | false =>
        rw [show collapseGo (a :: rest) false = '-' :: collapseGo rest true from by
          simp [collapseGo, ha]] at h
        rcases List.mem_cons.mp h with rfl | h2
        · exact Or.inl rfl
        · exact collapseGo_chars rest true h2

/-- Slugs never contain a slash, so a slug-named file sits directly in the
directory it is joined to. -/
theorem slug_no_slash (s : String) : '/' ∉ (slugify s).data := by
  intro h
  have h1 : '/' ∈ dropTrailDash (dropLeadDash (collapseRuns
      (s.data.map Char.toLower))) := h
  have h2 : '/' ∈ dropLeadDash (collapseRuns (s.data.map Char.toLower)) :=
    dropTrailDash_subset _ h1
  have h3 : '/' ∈ collapseRuns (s.data.map Char.toLower) :=
    dropLeadDash_subset _ h2
  rcases collapseGo_chars _ false h3 with h4 | h4
  · exact absurd h4 (by decide)
  · exact absurd h4 (by decide)

/-- A slug with a slash-free suffix appended is still slash-free. -/
theorem slug_ext_no_slash (nm ext : String) (hx : '/' ∉ ext.data) :
    '/' ∉ (slugify nm ++ ext).data := by
  rw [String.data_append]
  intro h
  rcases List.mem_append.mp h with h1 | h1
  · exact slug_no_slash nm h1
  · exact hx h1

/-- The parent directory of the `api/workflows` route template is never
created: it is not among the ancestors of any directory passed to
`fs.mkdir` before scaffold.ts:617. -/
theorem workflows_dir_not_created (w : String) :
    joinPath (joinPath (scaffoldTemplateAppDir w) "api") "workflows" ∉
      scaffoldDirsAtFailure w := by
  simp only [scaffoldDirsAtFailure, scaffoldTemplateAppDir, scaffoldTemplateDir,
    scaffoldAppRoot, scaffoldPagesDir, scaffoldBackendDir, joinPath_assoc]
  repeat' apply List.not_mem_append
  all_goals
    exact not_ancestor_of_join _ _ _ (by decide)
      (ne_append_slash _ _ (by decide))

/-- Evaluating every file-system call of `generateAppScaffold` on a fresh
workspace: the writes through the tenth fixed template all succeed, and
the write of `template/app/api/workflows/route.ts` (scaffold.ts:617)
rejects with `ENOENT`, since no mkdir ever created its directory. -/
theorem scaffoldOps_run (w : String) (s : Spec) :
    runFsOps (scaffoldOps w s) [] [] =
      { dirs := scaffoldDirsAtFailure w,
        written := scaffoldWrittenBeforeFailure w s,
        error := some ("ENOENT: no such file or directory, open " ++
          joinPath (joinPath (joinPath (scaffoldTemplateAppDir w) "api")
            "workflows") "route.ts") } := by
  have hroot : scaffoldAppRoot w ∈ pathAncestors (scaffoldAppRoot w) :=
    self_mem_pathAncestors _
  have hr : parentDir (scaffoldReadmePath w) = scaffoldAppRoot w :=
    parentDir_join _ _ (by decide)
  have hsp : parentDir (scaffoldSpecJsonPath w) = scaffoldAppRoot w :=
    parentDir_join _ _ (by decide)
  have hum : parentDir (scaffoldUiMapPath w) = scaffoldAppRoot w :=
    parentDir_join _ _ (by decide)
  have hA : runFsOps
      [FsOp.mkdir (scaffoldAppRoot w), .write (scaffoldReadmePath w),
       .write (scaffoldSpecJsonPath w), .write (scaffoldUiMapPath w),
       .mkdir (scaffoldPagesDir w)] [] [] =
      { dirs := pathAncestors (scaffoldAppRoot w) ++
          pathAncestors (scaffoldPagesDir w),
        written := [scaffoldReadmePath w, scaffoldSpecJsonPath w,
          scaffoldUiMapPath w],
        error := none } := by
    simp only [runFsOps, List.nil_append, hr, hsp, hum]
    rw [if_pos hroot, if_pos hroot, if_pos hroot]
    rfl
  have hmapP : (scaffoldRoutes s).map (fun page =>
      FsOp.write (joinPath (scaffoldPagesDir w) (slugify page.name ++ ".md"))) =
      (scaffoldPageFiles w s).map FsOp.write := by
    simp [scaffoldPageFiles, List.map_map, Function.comp]
  have hPguard : ∀ p ∈ scaffoldPageFiles w s,
      parentDir p ∈ pathAncestors (scaffoldAppRoot w) ++
        pathAncestors (scaffoldPagesDir w) := by
    intro p hp
    simp only [scaffoldPageFiles, List.mem_map] at hp
    obtain ⟨page, _, rfl⟩ := hp
    rw [parentDir_join _ _ (slug_ext_no_slash page.name ".md" (by decide))]
    exact List.mem_append.mpr (Or.inr (self_mem_pathAncestors _))
  have h2 : runFsOps
      ([FsOp.mkdir (scaffoldAppRoot w), .write (scaffoldReadmePath w),
        .write (scaffoldSpecJsonPath w), .write (scaffoldUiMapPath w),
        .mkdir (scaffoldPagesDir w)] ++
       (scaffoldRoutes s).map (fun page =>
         FsOp.write (joinPath (scaffoldPagesDir w)
           (slugify page.name ++ ".md")))) [] [] =
      { dirs := pathAncestors (scaffoldAppRoot w) ++
          pathAncestors (scaffoldPagesDir w),
        written := [scaffoldReadmePath w, scaffoldSpecJsonPath w,
          scaffoldUiMapPath w] ++ scaffoldPageFiles w s,
        error := none } := by
    rw [runFsOps_append_ok _ _ _ _ _ _ hA, hmapP]
    exact runFsOps_writes_ok _ _ _ hPguard
  have h3 : runFsOps
      (([FsOp.mkdir (scaffoldAppRoot w), .write (scaffoldReadmePath w),
         .write (scaffoldSpecJsonPath w), .write (scaffoldUiMapPath w),
         .mkdir (scaffoldPagesDir w)] ++
        (scaffoldRoutes s).map (fun page =>
          FsOp.write (joinPath (scaffoldPagesDir w)
            (slugify page.name ++ ".md")))) ++
       [FsOp.mkdir (scaffoldBackendDir w)]) [] [] =
      { dirs := (pathAncestors (scaffoldAppRoot w) ++
          pathAncestors (scaffoldPagesDir w)) ++
          pathAncestors (scaffoldBackendDir w),
        written := [scaffoldReadmePath w, scaffoldSpecJsonPath w,
          scaffoldUiMapPath w] ++ scaffoldPageFiles w s,
        error := none } := by
    rw [runFsOps_append_ok _ _ _ _ _ _ h2]
    rfl
  have hmapS : s.entities.map (fun entity =>
      FsOp.write (joinPath (scaffoldBackendDir w)
        (slugify entity.name ++ ".schema.json"))) =
      (scaffoldSchemaFiles w s).map FsOp.write := by
    simp [scaffoldSchemaFiles, List.map_map, Function.comp]
  have hSguard : ∀ p ∈ scaffoldSchemaFiles w s,
      parentDir p ∈ (pathAncestors (scaffoldAppRoot w) ++
        pathAncestors (scaffoldPagesDir w)) ++
        pathAncestors (scaffoldBackendDir w) := by
    intro p hp
    simp only [scaffoldSchemaFiles, List.mem_map] at hp
    obtain ⟨entity, _, rfl⟩ := hp
    rw [parentDir_join _ _
      (slug_ext_no_slash entity.name ".schema.json" (by decide))]
    exact List.mem_append.mpr (Or.inr (self_mem_pathAncestors _))
  have h4 : runFsOps
      ((([FsOp.mkdir (scaffoldAppRoot w), .write (scaffoldReadmePath w),
          .write (scaffoldSpecJsonPath w), .write (scaffoldUiMapPath w),
          .mkdir (scaffoldPagesDir w)] ++
         (scaffoldRoutes s).map (fun page =>
           FsOp.write (joinPath (scaffoldPagesDir w)
             (slugify page.name ++ ".md")))) ++
        [FsOp.mkdir (scaffoldBackendDir w)]) ++
       s.entities.map (fun entity =>
         FsOp.write (joinPath (scaffoldBackendDir w)
           (slugify entity.name ++ ".schema.json")))) [] [] =
      { dirs := (pathAncestors (scaffoldAppRoot w) ++
          pathAncestors (scaffoldPagesDir w)) ++
          pathAncestors (scaffoldBackendDir w),
        written := ([scaffoldReadmePath w, scaffoldSpecJsonPath w,
          scaffoldUiMapPath w] ++ scaffoldPageFiles w s) ++
          scaffoldSchemaFiles w s,
        error := none } := by
    rw [runFsOps_append_ok _ _ _ _ _ _ h3, hmapS]
    exact runFsOps_writes_ok _ _ _ hSguard
  have h5 : runFsOps
      (((([FsOp.mkdir (scaffoldAppRoot w), .write (scaffoldReadmePath w),
           .write (scaffoldSpecJsonPath w), .write (scaffoldUiMapPath w),
           .mkdir (scaffoldPagesDir w)] ++
          (scaffoldRoutes s).map (fun page =>
            FsOp.write (joinPath (scaffoldPagesDir w)
              (slugify page.name ++ ".md")))) ++
         [FsOp.mkdir (scaffoldBackendDir w)]) ++
        s.entities.map (fun entity =>
          FsOp.write (joinPath (scaffoldBackendDir w)
            (slugify entity.name ++ ".schema.json")))) ++
       scaffoldTemplateMkdirs w) [] [] =
      { dirs := scaffoldDirsAtFailure w,
        written := ([scaffoldReadmePath w, scaffoldSpecJsonPath w,
          scaffoldUiMapPath w] ++ scaffoldPageFiles w s) ++
          scaffoldSchemaFiles w s,
        error := none } := by
    rw [runFsOps_append_ok _ _ _ _ _ _ h4]
    rfl
  have hsplitF : (scaffoldFixedTemplates w).map FsOp.write =
      ((scaffoldFixedTemplates w).take 10).map FsOp.write ++
        (FsOp.write (joinPath (joinPath (joinPath (scaffoldTemplateAppDir w)
            "api") "workflows") "route.ts") ::
         [FsOp.write (joinPath (joinPath (joinPath (scaffoldTemplateAppDir w)
            "api") "integrations") "route.ts"),
          FsOp.write (joinPath (scaffoldTemplateAppDir w) "layout.tsx"),
          FsOp.write (joinPath (scaffoldTemplateDir w) "globals.css"),
          FsOp.write (joinPath (scaffoldTemplateDir w) "README.md")]) := rfl
  have hF10guard : ∀ p ∈ (scaffoldFixedTemplates w).take 10,
      parentDir p ∈ scaffoldDirsAtFailure w := by
    intro p hp
    have hx : (scaffoldFixedTemplates w).take 10 =
        [joinPath (joinPath (scaffoldTemplateAppDir w) "dashboard") "page.tsx",
         joinPath (joinPath (scaffoldTemplateAppDir w) "records") "page.tsx",
         joinPath (joinPath (scaffoldTemplateAppDir w) "entities") "page.tsx",
         joinPath (joinPath (scaffoldTemplateAppDir w) "workflows") "page.tsx",
         joinPath (joinPath (scaffoldTemplateAppDir w) "integrations") "page.tsx",
         joinPath (joinPath (scaffoldTemplateAppDir w) "auth") "page.tsx",
         joinPath (joinPath (scaffoldTemplateAppDir w) "settings") "page.tsx",
         joinPath (joinPath (joinPath (scaffoldTemplateAppDir w) "api")
           "records") "route.ts",
         joinPath (joinPath (joinPath (joinPath (scaffoldTemplateAppDir w)
           "api") "records") "[id]") "route.ts",
         joinPath (joinPath (joinPath (scaffoldTemplateAppDir w) "api")
           "entities") "route.ts"] := rfl
    rw [hx] at hp
    simp only [List.mem_cons, List.not_mem_nil, or_false] at hp
    rcases hp with rfl | rfl | rfl | rfl | rfl | rfl | rfl | rfl | rfl | rfl <;>
      rw [parentDir_join _ _ (by decide)] <;>
      simp [scaffoldDirsAtFailure, self_mem_pathAncestors]
  have hT : parentDir (joinPath (joinPath (joinPath (scaffoldTemplateAppDir w)
      "api") "workflows") "route.ts") ∉ scaffoldDirsAtFailure w := by
    rw [parentDir_join _ _ (by decide)]
    exact workflows_dir_not_created w
  simp only [scaffoldOps]
  rw [List.append_assoc]
  rw [runFsOps_append_ok _ _ _ _ _ _ h5]
  rw [hsplitF, List.append_assoc]
  rw [runFsOps_append_ok _ _ _ _ _ _ (runFsOps_writes_ok _ _ _ hF10guard)]
  rw [List.cons_append]
  simp only [runFsOps]
  rw [if_neg hT]
  simp [scaffoldWrittenBeforeFailure, List.append_assoc]

/-- Strings whose first characters differ are different. -/
theorem string_ne_of_head {a b : String} {c d : Char}
    (ha : a.data.head? = some c) (hb : b.data.head? = some d)
    (h : c ≠ d) : a ≠ b := by
  intro he
  rw [he, hb] at ha
  exact h (Option.some.inj ha).symm

/-- The head of an append is the head of a nonempty left part. -/
theorem head_append_of_head {l : List Char} {c : Char}
    (h : l.head? = some c) (m : List Char) : (l ++ m).head? = some c := by
  cases l with
  | nil => simp at h
  | cons a t => simpa using h

/-- The head of a string append is the head of a nonempty left part. -/
theorem str_head_append {a : String} {c : Char}
    (h : a.data.head? = some c) (x : String) :
    (a ++ x).data.head? = some c := by
  rw [String.data_append]
  exact head_append_of_head h x.data

/-- `join(sep)` of a list with one more element appends one separator and the
element. -/
theorem joinWith_append_single (sep x : String) :
    ∀ l : List String, l ≠ [] →
      joinWith sep (l ++ [x]) = joinWith sep l ++ sep ++ x
  | [], h => absurd rfl h
  | [a], _ => rfl
  | a :: b :: t, _ => by
    have ih := joinWith_append_single sep x (b :: t) (by simp)
    have h1 : joinWith sep ((a :: b :: t) ++ [x]) =
        a ++ sep ++ joinWith sep ((b :: t) ++ [x]) := rfl
    have h2 : joinWith sep (a :: b :: t) = a ++ sep ++ joinWith sep (b :: t) := rfl
    rw [h1, ih, h2]
    simp [String.append_assoc]

/-- Every element of a joined list occurs inside the joined string. -/
theorem mem_joinWith_infix (sep : String) :
    ∀ {l : List String} {s : String}, s ∈ l →
      s.data <:+: (joinWith sep l).data
  | [], s, h => absurd h (by simp)
  | [a], s, h => by
    rw [List.mem_singleton] at h
    subst h
    exact List.infix_refl _
  | a :: b :: t, s, h => by
    rcases List.mem_cons.mp h with rfl | h2
    · refine ⟨[], ((sep ++ joinWith sep (b :: t))).data, ?_⟩
      simp [joinWith, String.data_append, String.append_assoc]
    · have ih := mem_joinWith_infix sep h2
      have : joinWith sep (a :: b :: t) = (a ++ sep) ++ joinWith sep (b :: t) := by
        simp [joinWith, String.append_assoc]
      rw [this, String.data_append]
      obtain ⟨u, v, huv⟩ := ih
      exact ⟨(a ++ sep).data ++ u, v, by rw [← huv]; simp⟩

/-! ## Lemmas about `validateArtifacts` -/

/-- The artifact check succeeds exactly when every path stats. -/
theorem validateArtifacts_ok_iff (stat : String → Bool) (paths : List String) :
    validateArtifacts stat paths = .ok () ↔ ∀ p ∈ paths, stat p = true := by
  unfold validateArtifacts
  rcases hfil : paths.filter (fun p => !stat p) with _ | ⟨q, rest⟩
  · simp only [hfil, List.isEmpty_nil, if_true]
    constructor
    · intro _ p hp
      by_contra hs
      rw [Bool.not_eq_true] at hs
      have hmem : p ∈ paths.filter (fun r => !stat r) :=
        List.mem_filter.mpr ⟨hp, by simp [hs]⟩
      rw [hfil] at hmem
      simp at hmem
    · intro _
      trivial
  · have hqmem : q ∈ paths.filter (fun r => !stat r) := by
      rw [hfil]
      exact List.mem_cons_self q rest
    obtain ⟨hq1, hq2⟩ := List.mem_filter.mp hqmem
    simp only [hfil, List.isEmpty_cons]
    constructor
    · intro h
      exact absurd h (by simp)
    · intro hall
      have := hall q hq1
      rw [this] at hq2
      simp at hq2

/-- A path that fails to stat makes the check throw one aggregate error, and
that error names the path (its text occurs inside the message). -/
theorem validateArtifacts_missing (stat : String → Bool) (paths : List String)
    (p : String) (hp : p ∈ paths) (hs : stat p = false) :
    ∃ e, validateArtifacts stat paths = .error e ∧ p.data <:+: e.data := by
  have hmem : p ∈ paths.filter (fun q => !stat q) :=
    List.mem_filter.mpr ⟨hp, by simp [hs]⟩
  have hne : ¬(paths.filter (fun q => !stat q)).isEmpty := by
    rw [List.isEmpty_iff]
    intro h
    simp [h] at hmem
  refine ⟨_, by unfold validateArtifacts; rw [if_neg hne], ?_⟩
  have hinf := mem_joinWith_infix ", " hmem
  rw [String.data_append]
  obtain ⟨u, v, huv⟩ := hinf
  exact ⟨("Missing generated artifacts: ").data ++ u, v, by rw [← huv]; simp⟩

/-! ## The `readme` artifact path is not among the validated paths -/

/-- The first character of a path under `app/`. -/
theorem head_join_app (x : String) : (joinPath "app" x).data.head? = some 'a' :=
  str_head_append (a := "app" ++ "/") (c := 'a') (by decide) x

/-- The first character of a path under `backend/`. -/
theorem head_join_backend (x : String) :
    (joinPath "backend" x).data.head? = some 'b' :=
  str_head_append (a := "backend" ++ "/") (c := 'b') (by decide) x

/-- The first character of a path under `infra/`. -/
theorem head_join_infra (x : String) :
    (joinPath "infra" x).data.head? = some 'i' :=
  str_head_append (a := "infra" ++ "/") (c := 'i') (by decide) x

/-- `README.md` differs from any path under `app/`. -/
theorem readme_ne_join_app (x : String) :
    (("README.md" : String) = joinPath "app" x) = False := by
  apply eq_false
  exact string_ne_of_head (c := 'R') (d := 'a') (by decide) (head_join_app x)
    (by decide)

/-- `README.md` differs from any path under `app/` (mirror orientation). -/
theorem join_app_ne_readme (x : String) :
    (joinPath "app" x = ("README.md" : String)) = False := by
  apply eq_false
  exact string_ne_of_head (c := 'a') (d := 'R') (head_join_app x) (by decide)
    (by decide)

/-- `README.md` differs from any path under `backend/`. -/
theorem readme_ne_join_backend (x : String) :
    (("README.md" : String) = joinPath "backend" x) = False := by
  apply eq_false
  exact string_ne_of_head (c := 'R') (d := 'b') (by decide) (head_join_backend x)
    (by decide)

/-- `README.md` differs from any path under `backend/` (mirror
orientation). -/
theorem join_backend_ne_readme (x : String) :
    (joinPath "backend" x = ("README.md" : String)) = False := by
  apply eq_false
  exact string_ne_of_head (c := 'b') (d := 'R') (head_join_backend x) (by decide)
    (by decide)

/-- `README.md` differs from any path under `infra/`. -/
theorem readme_ne_join_infra (x : String) :
    (("README.md" : String) = joinPath "infra" x) = False := by
  apply eq_false
  exact string_ne_of_head (c := 'R') (d := 'i') (by decide) (head_join_infra x)
    (by decide)

/-- `README.md` differs from any path under `infra/` (mirror orientation). -/
theorem join_infra_ne_readme (x : String) :
    (joinPath "infra" x = ("README.md" : String)) = False := by
  apply eq_false
  exact string_ne_of_head (c := 'i') (d := 'R') (head_join_infra x) (by decide)
    (by decide)

/-- `README.md` is not `manifest.json`. -/
theorem readme_ne_manifest : (("README.md" : String) = "manifest.json") = False := by
  apply eq_false
  decide

/-- `README.md` is not `app-spec.json`. -/
theorem readme_ne_appspec : (("README.md" : String) = "app-spec.json") = False := by
  apply eq_false
  decide

/-- `README.md` is not `meta.json`. -/
theorem readme_ne_meta : (("README.md" : String) = "meta.json") = False := by
  apply eq_false
  decide

/-- The workspace-level `README.md` recorded as the `readme` artifact is not
among the paths the orchestrator hands to `validateArtifacts`. -/
theorem readme_not_in_validated (ws : String) (spec : Spec) :
    joinPath ws "README.md" ∉
      joinPath ws "manifest.json" :: joinPath ws "app-spec.json" ::
        (generateScaffoldPaths ws spec ++ generateAppScaffoldPaths ws spec) := by
  intro hmem
  simp only [generateScaffoldPaths, generateAppScaffoldPaths,
    scaffoldPageArtifacts, scaffoldTemplateArtifacts, scaffoldPageFiles,
    scaffoldSchemaFiles, scaffoldEntityTemplates, scaffoldFixedTemplates,
    scaffoldEntityTriple, scaffoldEntityApiDir, scaffoldSpecJsonPath,
    scaffoldUiMapPath, scaffoldPagesDir, scaffoldBackendDir,
    scaffoldTemplateAppDir, scaffoldTemplateDir, scaffoldAppRoot,
    scaffoldRoutes, joinPath_assoc, List.mem_cons, List.mem_append,
    List.mem_map, List.mem_flatMap, joinPath_right_inj, readme_ne_join_app,
    readme_ne_join_backend, readme_ne_join_infra, join_app_ne_readme,
    join_backend_ne_readme, join_infra_ne_readme, readme_ne_manifest,
    readme_ne_appspec, readme_ne_meta, or_false, false_or, exists_false,
    List.not_mem_nil] at hmem
  simp at hmem

/-! ## Projection and case lemmas for the orchestrator trace -/

/-- The created run record: `running`, one `pending` step per plan entry. -/
theorem runOrchestrator_runInitial (cwd buildId runId problem : String)
    (result : GenieResult) (stat : String → Bool) (ev : Bool) :
    (runOrchestrator cwd buildId runId problem result stat ev).runInitial =
      { status := "running"
        steps := result.plan.map (fun s => { name := s, status := "pending" }) } := rfl

/-- The workspace recorded by the trace. -/
theorem runOrchestrator_workspace (cwd buildId runId problem : String)
    (result : GenieResult) (stat : String → Bool) (ev : Bool) :
    (runOrchestrator cwd buildId runId problem result stat ev).workspace =
      orchWorkspace cwd buildId result := rfl

/-- The artifact records appended by the orchestrator. -/
theorem runOrchestrator_artifacts (cwd buildId runId problem : String)
    (result : GenieResult) (stat : String → Bool) (ev : Bool) :
    (runOrchestrator cwd buildId runId problem result stat ev).artifacts =
      orchArtifactRecords (orchWorkspace cwd buildId result) (specOfResult result) := rfl

/-- The paths the orchestrator verifies. -/
theorem runOrchestrator_validated (cwd buildId runId problem : String)
    (result : GenieResult) (stat : String → Bool) (ev : Bool) :
    (runOrchestrator cwd buildId runId problem result stat ev).validated =
      orchValidatedPaths (orchWorkspace cwd buildId result) (specOfResult result) := rfl

/-- The three terminal shapes of one orchestration: artifact validation
throws (run failed, error re-raised); validation passes and the external
verification passes (run ready, steps completed); validation passes and the
external verification fails (run failed, its error re-raised). -/
theorem runOrchestrator_case_split (cwd buildId runId problem : String)
    (result : GenieResult) (stat : String → Bool) (ev : Bool) :
    (∃ e, validateArtifacts stat
          (orchValidatedPaths (orchWorkspace cwd buildId result)
            (specOfResult result)) = .error e ∧
        (runOrchestrator cwd buildId runId problem result stat ev).run =
          { status := "failed"
            steps := result.plan.map (fun s => { name := s, status := "failed" }) } ∧
        (runOrchestrator cwd buildId runId problem result stat ev).outcome =
          .error e) ∨
    (validateArtifacts stat
        (orchValidatedPaths (orchWorkspace cwd buildId result)
          (specOfResult result)) = .ok () ∧ ev = true ∧
      (runOrchestrator cwd buildId runId problem result stat ev).run =
        { status := "ready"
          steps := result.plan.map (fun s => { name := s, status := "completed" }) } ∧
      (runOrchestrator cwd buildId runId problem result stat ev).outcome =
        .ok { buildId := buildId, runId := runId,
              manifestPath :=
                joinPath (orchWorkspace cwd buildId result) "manifest.json" }) ∨
    (validateArtifacts stat
        (orchValidatedPaths (orchWorkspace cwd buildId result)
          (specOfResult result)) = .ok () ∧ ev = false ∧
      (runOrchestrator cwd buildId runId problem result stat ev).run =
        { status := "failed"
          steps := result.plan.map (fun s => { name := s, status := "failed" }) } ∧
      (runOrchestrator cwd buildId runId problem result stat ev).outcome =
        .error "Command failed: npm run verify:generated") := by
  rcases hv : validateArtifacts stat
      (orchValidatedPaths (orchWorkspace cwd buildId result)
        (specOfResult result)) with e | u
  · left
    refine ⟨e, rfl, ?_, ?_⟩ <;>
      simp [runOrchestrator, hv, List.map_map]
  · cases u
    cases ev
    · right; right
      refine ⟨rfl, rfl, ?_, ?_⟩ <;>
        simp [runOrchestrator, hv, List.map_map]
    · right; left
      refine ⟨rfl, rfl, ?_, ?_⟩ <;>
        simp [runOrchestrator, hv, List.map_map]

/-! ## Lemmas for the Schema Builder and the scaffold artifact counts -/

/-- The mapped type is always one of the three property types. -/
theorem mapFieldType_mem (t : String) :
    mapFieldType t ∈ (["number", "boolean", "string"] : List String) := by
  unfold mapFieldType
  split_ifs <;> simp

/-- `objInsert` preserves a predicate on stored values when the inserted
value satisfies it. -/
theorem objInsert_values {P : String → Prop} {acc : List (String × String)}
    {k v : String} (hacc : ∀ pr ∈ acc, P pr.2) (hv : P v) :
    ∀ pr ∈ objInsert acc k v, P pr.2 := by
  intro pr hpr
  unfold objInsert at hpr
  split at hpr
  · obtain ⟨q, hq, hq2⟩ := List.mem_map.mp hpr
    by_cases hk : q.1 = k
    · rw [if_pos hk] at hq2
      exact hq2 ▸ hv
    · rw [if_neg hk] at hq2
      exact hq2 ▸ hacc q hq
  · rcases List.mem_append.mp hpr with h | h
    · exact hacc pr h
    · rw [List.mem_singleton] at h
      subst h
      exact hv

/-- Every value of the folded properties object is a mapped field type. -/
theorem foldl_objInsert_types (fields : List SpecField) :
    ∀ acc, (∀ pr ∈ acc, pr.2 ∈ (["number", "boolean", "string"] : List String)) →
      ∀ pr ∈ fields.foldl
          (fun acc f => objInsert acc f.name (mapFieldType f.type)) acc,
        pr.2 ∈ (["number", "boolean", "string"] : List String) := by
  induction fields with
  | nil =>
    intro acc hacc
    simpa using hacc
  | cons f fs ih =>
    intro acc hacc
    simp only [List.foldl_cons]
    exact ih _ (objInsert_values hacc (mapFieldType_mem f.type))

/-- Each entity contributes exactly three per-entity template artifacts. -/
theorem scaffoldEntityTemplates_length (w : String) (s : Spec) :
    (scaffoldEntityTemplates w s).length = 3 * s.entities.length := by
  unfold scaffoldEntityTemplates
  suffices h : ∀ l : List SpecEntity,
      (l.flatMap (scaffoldEntityTriple w)).length = 3 * l.length from h _
  intro l
  induction l with
  | nil => simp
  | cons e t ih =>
    simp only [List.flatMap_cons, List.length_append, ih, scaffoldEntityTriple,
      List.length_cons, List.length_nil]
    omega


/-! ## The transcribed slug transform equals its run-based
characterization -/
/-- In skip state the scanner drops the rest of the non-slug run. -/
theorem collapseGo_true (l : List Char) :
    collapseGo l true = collapseGo (l.dropWhile (fun c => !isSlugChar c)) false := by
  induction l with
  | nil => rfl
  | cons c r ih =>
    by_cases h : isSlugChar c
    · simp [collapseGo, h, List.dropWhile_cons]
    · simp [collapseGo, h, List.dropWhile_cons, ih]

/-- Dropping a leading dash is the identity when the head is not a dash. -/
theorem dropLeadDash_cons_of_ne (c : Char) (l : List Char) (h : c ≠ '-') :
    dropLeadDash (c :: l) = c :: l := by
  unfold dropLeadDash
  split
  · rename_i heq
    rw [List.cons.injEq] at heq
    exact absurd heq.1 h
  · rfl

/-- A slug character is never a dash. -/
theorem slug_ne_dash {c : Char} (h : isSlugChar c = true) : c ≠ '-' := by
  intro he
  subst he
  simp [isSlugChar] at h

/-- Trimming the leading dash of the collapsed list is the same as
collapsing after dropping the leading non-slug run. -/
theorem dropLead_collapse (l : List Char) :
    dropLeadDash (collapseGo l false) =
      collapseGo (l.dropWhile (fun c => !isSlugChar c)) false := by
  cases l with
  | nil => rfl
  | cons c r =>
    by_cases h : isSlugChar c
    · rw [show collapseGo (c :: r) false = c :: collapseGo r false from by
        simp [collapseGo, h]]
      rw [dropLeadDash_cons_of_ne c _ (slug_ne_dash h)]
      simp [List.dropWhile_cons, h, collapseGo]
    · rw [show collapseGo (c :: r) false = '-' :: collapseGo r true from by
        simp [collapseGo, h]]
      rw [show dropLeadDash ('-' :: collapseGo r true) = collapseGo r true from rfl]
      rw [collapseGo_true]
      simp [List.dropWhile_cons, h]

/-- The runs of a list ignore a leading non-slug run. -/
theorem runs_dropWhile_front (l : List Char) :
    slugRunsGo l [] = slugRunsGo (l.dropWhile (fun c => !isSlugChar c)) [] := by
  induction l with
  | nil => rfl
  | cons c r ih =>
    by_cases h : isSlugChar c
    · simp [List.dropWhile_cons, h]
    · simp only [slugRunsGo, h, if_false, List.isEmpty_nil, if_true,
        List.dropWhile_cons]
      simpa [h] using ih

/-- With a pending run the run scanner returns at least one run. -/
theorem slugRunsGo_ne_nil (l : List Char) :
    ∀ acc, acc ≠ [] → slugRunsGo l acc ≠ [] := by
  induction l with
  | nil =>
    intro acc h
    simp [slugRunsGo, h]
  | cons c r ih =>
    intro acc h
    by_cases hc : isSlugChar c
    · simp only [slugRunsGo, hc, if_true]
      exact ih (c :: acc) (by simp)
    · simp [slugRunsGo, hc, h]

/-- Every produced run is nonempty and made of slug characters. -/
theorem slugRunsGo_inv (l : List Char) :
    ∀ acc, (∀ c ∈ acc, isSlugChar c = true) →
      ∀ r ∈ slugRunsGo l acc, r ≠ [] ∧ ∀ c ∈ r, isSlugChar c = true := by
  induction l with
  | nil =>
    intro acc hacc r hr
    simp only [slugRunsGo] at hr
    split at hr
    · simp at hr
    · rename_i hne
      rw [List.mem_singleton] at hr
      subst hr
      exact ⟨by simpa using hne, fun d hd => hacc d (by simpa using hd)⟩
  | cons c rest ih =>
    intro acc hacc r hr
    simp only [slugRunsGo] at hr
    by_cases hc : isSlugChar c
    · rw [if_pos hc] at hr
      refine ih (c :: acc) ?_ r hr
      intro d hd
      rcases List.mem_cons.mp hd with rfl | hd
      · exact hc
      · exact hacc d hd
    · rw [if_neg hc] at hr
      by_cases ha : acc.isEmpty
      · rw [if_pos ha] at hr
        exact ih [] (by simp) r hr
      · rw [if_neg ha] at hr
        rcases List.mem_cons.mp hr with rfl | hr2
        · exact ⟨by simpa using ha, fun d hd => hacc d (by simpa using hd)⟩
        · exact ih [] (by simp) r hr2

/-- Dropping the trailing dash undoes appending one. -/
theorem dropTrail_append_dash (l : List Char) : dropTrailDash (l ++ ['-']) = l := by
  unfold dropTrailDash
  have h1 : (l ++ ['-']).reverse = '-' :: l.reverse := by simp
  rw [h1]
  rw [show dropLeadDash ('-' :: l.reverse) = l.reverse from rfl]
  simp

/-- Dropping a trailing dash is the identity when the last character is not
a dash. -/
theorem dropTrail_of_getLast_ne (l : List Char)
    (h : ∀ c, l.getLast? = some c → c ≠ '-') : dropTrailDash l = l := by
  unfold dropTrailDash
  cases hl : l.reverse with
  | nil =>
    have : l = [] := by simpa using congrArg List.reverse hl
    simp [this]
    rfl
  | cons c t =>
    have hc : l.getLast? = some c := by
      rw [← List.head?_reverse, hl]
      rfl
    rw [dropLeadDash_cons_of_ne c t (h c hc), ← hl]
    simp

/-- Joining nonempty runs gives a nonempty list. -/
theorem dashJoin_ne_nil (rs : List (List Char)) (h : rs ≠ [])
    (hr : ∀ r ∈ rs, r ≠ []) : dashJoin rs ≠ [] := by
  match rs with
  | [r] => simpa [dashJoin] using hr r (by simp)
  | r :: r2 :: t => simp [dashJoin]

/-- A join of slug runs ends in a slug character. -/
theorem dashJoin_getLast_slug (rs : List (List Char))
    (hinv : ∀ r ∈ rs, r ≠ [] ∧ ∀ c ∈ r, isSlugChar c = true) :
    ∀ c, (dashJoin rs).getLast? = some c → isSlugChar c = true := by
  induction rs with
  | nil =>
    intro c hc
    simp [dashJoin] at hc
  | cons r rs' ih =>
    cases rs' with
    | nil =>
      intro c hc
      simp only [dashJoin] at hc
      exact (hinv r (by simp)).2 c (List.mem_of_mem_getLast? (by simp [hc]))
    | cons r2 t =>
      intro c hc
      simp only [dashJoin] at hc
      have hne : dashJoin (r2 :: t) ≠ [] :=
        dashJoin_ne_nil (r2 :: t) (by simp) (fun q hq => (hinv q (by simp [hq])).1)
      rw [List.getLast?_append_of_ne_nil r (by simp)] at hc
      have hc2 : (dashJoin (r2 :: t)).getLast? = some c := by
        cases hdj : dashJoin (r2 :: t) with
        | nil => exact absurd hdj hne
        | cons a b =>
          rw [hdj] at hc
          rw [List.getLast?_cons_cons] at hc
          exact hc
      exact ih (fun q hq => hinv q (by simp [hq])) c hc2

/-- Main invariant: with a pending slug run, the collapsed output equals the
joined runs followed by a dangling dash exactly when the input ends in a
non-slug run. -/
theorem collapse_runs_spec :
    ∀ n (l : List Char), l.length ≤ n →
      ∀ acc, acc ≠ [] → (∀ c ∈ acc, isSlugChar c = true) →
        acc.reverse ++ collapseGo l false =
          dashJoin (slugRunsGo l acc) ++ tailDash l := by
  intro n
  induction n with
  | zero =>
    intro l hl acc hacc _
    have hnil : l = [] := List.length_eq_zero.mp (Nat.le_zero.mp hl)
    subst hnil
    simp [collapseGo, slugRunsGo, tailDash, hacc, dashJoin]
  | succ n ih =>
    intro l hl acc hacc hslug
    cases l with
    | nil => simp [collapseGo, slugRunsGo, tailDash, hacc, dashJoin]
    | cons c r =>
      by_cases hc : isSlugChar c
      · rw [show collapseGo (c :: r) false = c :: collapseGo r false from by
          simp [collapseGo, hc]]
        rw [show slugRunsGo (c :: r) acc = slugRunsGo r (c :: acc) from by
          simp [slugRunsGo, hc]]
        have hlen : r.length ≤ n := by
          simp only [List.length_cons] at hl
          omega
        have hslug2 : ∀ d ∈ c :: acc, isSlugChar d = true := by
          intro d hd
          rcases List.mem_cons.mp hd with rfl | hd
          · exact hc
          · exact hslug d hd
        have hIH := ih r hlen (c :: acc) (by simp) hslug2
        rw [List.reverse_cons] at hIH
        have hta : tailDash (c :: r) = tailDash r := by
          cases r with
          | nil => simp [tailDash, hc]
          | cons d t => simp [tailDash, List.getLast?_cons_cons]
        rw [hta, ← hIH]
        simp
      · rw [show collapseGo (c :: r) false = '-' :: collapseGo r true from by
          simp [collapseGo, hc]]
        rw [show slugRunsGo (c :: r) acc = acc.reverse :: slugRunsGo r [] from by
          simp [slugRunsGo, hc, hacc]]
        rw [collapseGo_true, runs_dropWhile_front]
        cases hr' : r.dropWhile (fun d => !isSlugChar d) with
        | nil =>
          have hall := List.dropWhile_eq_nil_iff.mp hr'
          have htail : tailDash (c :: r) = ['-'] := by
            cases hgl : (c :: r).getLast? with
            | none => simp at hgl
            | some x =>
              have hx : x ∈ c :: r := List.mem_of_mem_getLast? (by simp [hgl])
              have hxn : isSlugChar x = false := by
                rcases List.mem_cons.mp hx with rfl | hx2
                · simpa using hc
                · simpa using hall x hx2
              simp [tailDash, hgl, hxn]
          rw [htail]
          simp [collapseGo, slugRunsGo, dashJoin]
        | cons d t =>
          have hd : isSlugChar d = true := by
            have := List.head?_dropWhile_not (fun x => !isSlugChar x) r
            rw [hr'] at this
            simpa using this
          rw [show collapseGo (d :: t) false = d :: collapseGo t false from by
            simp [collapseGo, hd]]
          rw [show slugRunsGo (d :: t) [] = slugRunsGo t [d] from by
            simp [slugRunsGo, hd]]
          have hlen : t.length ≤ n := by
            have h1 : (d :: t).length ≤ r.length := by
              rw [← hr']
              exact (List.dropWhile_suffix _).sublist.length_le
            simp only [List.length_cons] at h1 hl
            omega
          have hIH := ih t hlen [d] (by simp) (by
            intro x hx
            rw [List.mem_singleton] at hx
            subst hx
            exact hd)
          rw [show ([d] : List Char).reverse = [d] from rfl] at hIH
          have hne := slugRunsGo_ne_nil t [d] (by simp)
          have hdj : dashJoin (acc.reverse :: slugRunsGo t [d]) =
              acc.reverse ++ '-' :: dashJoin (slugRunsGo t [d]) := by
            cases hsr : slugRunsGo t [d] with
            | nil => exact absurd hsr hne
            | cons a b => rfl
          have htail2 : tailDash (c :: r) = tailDash t := by
            have hsuff : (d :: t) <:+ r := by
              rw [← hr']
              exact List.dropWhile_suffix _
            obtain ⟨pre, hpre⟩ := hsuff
            have hgl : (c :: r).getLast? = (d :: t).getLast? := by
              rw [show (c :: r) = (c :: pre) ++ (d :: t) from by
                rw [← hpre]
                simp]
              exact List.getLast?_append_of_ne_nil _ (by simp)
            cases t with
            | nil => simp [tailDash, hgl, hd]
            | cons e u =>
              have h2 : (d :: e :: u).getLast? = (e :: u).getLast? :=
                List.getLast?_cons_cons
              simp [tailDash, hgl, h2]
          have h3 : d :: collapseGo t false =
              dashJoin (slugRunsGo t [d]) ++ tailDash t := by
            simpa using hIH
          rw [htail2, hdj, h3]
          simp

/-- Collapsing and trimming equals joining the maximal slug runs. -/
theorem collapse_trim_eq_runs (l : List Char) :
    dropTrailDash (dropLeadDash (collapseGo l false)) =
      dashJoin (slugRunsGo l []) := by
  rw [dropLead_collapse, runs_dropWhile_front]
  cases hr' : l.dropWhile (fun d => !isSlugChar d) with
  | nil => rfl
  | cons d t =>
    have hd : isSlugChar d = true := by
      have := List.head?_dropWhile_not (fun x => !isSlugChar x) l
      rw [hr'] at this
      simpa using this
    rw [show collapseGo (d :: t) false = d :: collapseGo t false from by
      simp [collapseGo, hd]]
    rw [show slugRunsGo (d :: t) [] = slugRunsGo t [d] from by
      simp [slugRunsGo, hd]]
    have hsingle : ∀ x ∈ ([d] : List Char), isSlugChar x = true := by
      intro x hx
      rw [List.mem_singleton] at hx
      subst hx
      exact hd
    have hIH := collapse_runs_spec t.length t le_rfl [d] (by simp) hsingle
    have h1 : d :: collapseGo t false =
        dashJoin (slugRunsGo t [d]) ++ tailDash t := by
      simpa using hIH
    rw [h1]
    have hinv := slugRunsGo_inv t [d] hsingle
    cases hgl : t.getLast? with
    | none =>
      have ht : tailDash t = [] := by simp [tailDash, hgl]
      rw [ht, List.append_nil]
      exact dropTrail_of_getLast_ne _
        (fun x hx => slug_ne_dash (dashJoin_getLast_slug _ hinv x hx))
    | some x =>
      by_cases hx : isSlugChar x
      · have ht : tailDash t = [] := by simp [tailDash, hgl, hx]
        rw [ht, List.append_nil]
        exact dropTrail_of_getLast_ne _
          (fun y hy => slug_ne_dash (dashJoin_getLast_slug _ hinv y hy))
      · have ht : tailDash t = ['-'] := by simp [tailDash, hgl, hx]
        rw [ht]
        exact dropTrail_append_dash _

/-- The transcribed `slugify` agrees with the run-based spec-side
characterization on every input. -/
theorem slugify_eq_slugSpecModel (s : String) : slugify s = slugSpecModel s := by
  unfold slugify slugSpecModel collapseRuns
  exact congrArg String.mk (collapse_trim_eq_runs (s.data.map Char.toLower))

/-! ## Claim theorems -/

/-- C4: the Content Validator is a pure function of (content, extension); a
`.json` target passes exactly when the content parses as JSON, and the
bracket scan accepts balanced content, rejects truncated content, and skips
an unmatched closing brace inside a quoted span. -/
theorem C4_validator_soundness :
    validateCode "\x7b\"a\":1\x7d" ".json" = none ∧
    (validateCode "\x7b\"a\":\x7d" ".json").isSome = true ∧
    validateCode "function f() \x7b return [1,2]; \x7d" ".ts" = none ∧
    (validateCode "function f() \x7b return [1,2;" ".ts").isSome = true ∧
    validateCode "\"a string with \x7d inside\"" ".ts" = none ∧
    (∀ content : String,
      validateCode content ".json" = none ↔ (jsonParse content).isSome = true) := by
  refine ⟨rfl, rfl, rfl, rfl, rfl, ?_⟩
  intro content
  unfold validateCode
  rw [if_pos rfl]
  cases jsonParse content <;> simp

/-- C10: in the bracket scanner a backslash starts an escape even outside
quoted spans — the next character is skipped entirely — so the two-character
content backslash-brace validates for every non-`.json` extension although
its opening brace is never closed. -/
theorem C10_backslash_escape :
    (∀ (c : Char) (rest stack : List Char) (inString : Option Char),
        bracketScan ('\\' :: c :: rest) stack inString false =
          bracketScan rest stack inString false) ∧
    (∀ ext : String, ext ≠ ".json" → validateCode "\\\x7b" ext = none) := by
  constructor
  · intro c rest stack q
    rfl
  · intro ext h
    unfold validateCode
    rw [if_neg h]
    rfl

/-- C10 witness: the escape property at the concrete extension `.ts`. -/
theorem C10_backslash_escape_witness : validateCode "\\\x7b" ".ts" = none :=
  C10_backslash_escape.2 ".ts" (by decide)

/-- C8: slugify's concrete behaviour, its equality with the run-based
characterization (lowercase, collapse non-alphanumeric runs to one dash,
trim the ends), agreement of the three copies of the transform, and the
orchestrator's workspace falling back to the build id exactly when the
summary slugifies to the empty string. -/
theorem C8_slug_stability :
    slugify "Vendor Audit & Review!" = "vendor-audit-review" ∧
    slugify "" = "" ∧
    (∀ s : String, slugify s = slugSpecModel s) ∧
    (∀ s : String, normalizeName s = slugify s ∧ safeName s = slugify s) ∧
    (∀ (cwd buildId runId problem : String) (result : GenieResult)
        (stat : String → Bool) (ev : Bool),
      normalizeName result.summary = "" →
        (runOrchestrator cwd buildId runId problem result stat ev).workspace =
          joinPath (joinPath cwd "generated") buildId) ∧
    (∀ (cwd buildId runId problem : String) (result : GenieResult)
        (stat : String → Bool) (ev : Bool),
      normalizeName result.summary ≠ "" →
        (runOrchestrator cwd buildId runId problem result stat ev).workspace =
          joinPath (joinPath cwd "generated") (normalizeName result.summary)) := by
  refine ⟨by decide, by decide, slugify_eq_slugSpecModel,
    fun s => ⟨rfl, rfl⟩, ?_, ?_⟩
  · intro cwd buildId runId problem result stat ev h
    rw [runOrchestrator_workspace]
    unfold orchWorkspace
    rw [if_pos h]
  · intro cwd buildId runId problem result stat ev h
    rw [runOrchestrator_workspace]
    unfold orchWorkspace
    rw [if_neg h]

/-- C8 witness: an all-punctuation summary slugifies to the empty string and
the workspace folder falls back to the build id. -/
theorem C8_slug_stability_witness :
    (runOrchestrator "" "b1" "r1" "p" demoResultNoSlug (fun _ => true) true).workspace =
      joinPath (joinPath "" "generated") "b1" :=
  C8_slug_stability.2.2.2.2.1 "" "b1" "r1" "p" demoResultNoSlug (fun _ => true) true
    (by decide)

/-- C9: the field type mapping is total with exactly the three output types,
and the built schema has `object` type, mapped property types, and the
ordered required-name lists. -/
theorem C9_schema_builder :
    mapFieldType "number" = "number" ∧ mapFieldType "boolean" = "boolean" ∧
    mapFieldType "string" = "string" ∧ mapFieldType "date" = "string" ∧
    mapFieldType "text" = "string" ∧ mapFieldType "enum" = "string" ∧
    (∀ t : String, t ≠ "number" → t ≠ "boolean" → mapFieldType t = "string") ∧
    (∀ t : String, mapFieldType t ∈ (["number", "boolean", "string"] : List String)) ∧
    (∀ spec : Spec, ∀ es ∈ buildSchema spec,
        es.schemaType = "object" ∧
        ∀ pr ∈ es.properties,
          pr.2 ∈ (["number", "boolean", "string"] : List String)) ∧
    (∀ spec : Spec,
      (buildSchema spec).map EntitySchema.required =
        spec.entities.map
          (fun e => (e.fields.filter (fun f => f.required)).map (fun f => f.name))) := by
  refine ⟨rfl, rfl, rfl, rfl, rfl, rfl, ?_, mapFieldType_mem, ?_, ?_⟩
  · intro t h1 h2
    unfold mapFieldType
    rw [if_neg h1, if_neg h2]
    split_ifs <;> rfl
  · intro spec es hes
    obtain ⟨e, _, rfl⟩ := List.mem_map.mp hes
    exact ⟨rfl, foldl_objInsert_types e.fields [] (by simp)⟩
  · intro spec
    simp [buildSchema, List.map_map]

/-- C9 witness: an unknown type maps to `string`, and the required list of
the demonstration entity is its single required field name. -/
theorem C9_schema_builder_witness :
    mapFieldType "datetime" = "string" ∧
    (buildSchema specOneEntity).map EntitySchema.required = [["amount"]] := by
  constructor
  · exact C9_schema_builder.2.2.2.2.2.2.1 "datetime" (by decide) (by decide)
  · exact (C9_schema_builder.2.2.2.2.2.2.2.2.2 specOneEntity).trans (by decide)

/-- C7: the Template App Generator produces one page file per route; an
empty `pages` array is replaced by the `Dashboard`/`Items` default set (two
page files, not zero), a non-empty one is used as declared, in order. -/
theorem C7_default_pages (workspace : String) (spec : Spec) :
    scaffoldPageFiles workspace spec =
      (scaffoldRoutes spec).map
        (fun p => joinPath (scaffoldPagesDir workspace) (slugify p.name ++ ".md")) ∧
    (spec.pages = [] →
      scaffoldRoutes spec = defaultRoutes ∧
      scaffoldPageFiles workspace spec =
        [joinPath (scaffoldPagesDir workspace) "dashboard.md",
         joinPath (scaffoldPagesDir workspace) "items.md"]) ∧
    (spec.pages ≠ [] →
      scaffoldRoutes spec = spec.pages ∧
      (scaffoldPageFiles workspace spec).length = spec.pages.length) := by
  refine ⟨rfl, ?_, ?_⟩
  · intro h
    have hr : scaffoldRoutes spec = defaultRoutes := by
      unfold scaffoldRoutes
      rw [h]
      rfl
    refine ⟨hr, ?_⟩
    unfold scaffoldPageFiles
    rw [hr]
    rfl
  · intro h
    have hlen : ¬spec.pages.length = 0 := by
      simpa [List.length_eq_zero] using h
    have hr : scaffoldRoutes spec = spec.pages := by
      unfold scaffoldRoutes
      rw [if_neg hlen]
    exact ⟨hr, by unfold scaffoldPageFiles; rw [hr]; simp⟩

/-- C7 witness: the two default page files at a concrete workspace. -/
theorem C7_default_pages_witness :
    scaffoldRoutes specEmptyPages = defaultRoutes ∧
    scaffoldPageFiles "ws" specEmptyPages =
      [joinPath (scaffoldPagesDir "ws") "dashboard.md",
       joinPath (scaffoldPagesDir "ws") "items.md"] :=
  (C7_default_pages "ws" specEmptyPages).2.1 rfl

/-- C5 (counterexample): at a concrete one-entity specification the
Template App Generator does not return an artifact list at all — the write
of `template/app/api/workflows/route.ts` (scaffold.ts:617) rejects with
`ENOENT`, since scaffold.ts never creates that directory — and even the
list it assembles does not have a `fixed + 2N` length: one entity adds
four paths, not two. -/
theorem C5_counterexample :
    (generateAppScaffold "ws" specOneEntity).result =
      Except.error ("ENOENT: no such file or directory, open " ++
        "ws/app/template/app/api/workflows/route.ts") ∧
    ¬ ∃ k : Nat, ∀ s : Spec,
        (generateAppScaffoldPaths "ws" s).length = k + 2 * s.entities.length := by
  constructor
  · rfl
  · rintro ⟨k, h⟩
    have h0 := h specZeroEntities
    have h1 := h specOneEntity
    have e0 : (generateAppScaffoldPaths "ws" specZeroEntities).length = 18 := by
      decide
    have e1 : (generateAppScaffoldPaths "ws" specOneEntity).length = 22 := by
      decide
    have n0 : specZeroEntities.entities.length = 0 := rfl
    have n1 : specOneEntity.entities.length = 1 := rfl
    rw [e0, n0] at h0
    rw [e1, n1] at h1
    omega

/-- C5 (amended): for every specification the Template App Generator fails
instead of returning.  It writes `app/README.md`, `app/spec.json`,
`app/ui-map.md`, one page file per route, one schema file per entity and
the first ten fixed template files, and then the write of
`template/app/api/workflows/route.ts` (scaffold.ts:617) rejects with
`ENOENT` — no mkdir in the function creates that directory — so the
rejection propagates and no artifact list is returned.  The artifact list
the function assembles, and would return had `template/app/api/workflows`
and `template/app/api/integrations` been created, has `17 + P + 4N`
entries: per entity one schema file plus one list+detail API route pair
plus one entities page. -/
theorem C5_scaffold_completeness (workspace : String) (spec : Spec) :
    (generateAppScaffold workspace spec).result =
      Except.error ("ENOENT: no such file or directory, open " ++
        joinPath (joinPath (joinPath (scaffoldTemplateAppDir workspace) "api")
          "workflows") "route.ts") ∧
    (generateAppScaffold workspace spec).written =
      scaffoldWrittenBeforeFailure workspace spec ∧
    (generateAppScaffoldPaths workspace spec).length =
      17 + (scaffoldRoutes spec).length + 4 * spec.entities.length ∧
    (scaffoldSchemaFiles workspace spec).length = spec.entities.length ∧
    (scaffoldEntityTemplates workspace spec).length = 3 * spec.entities.length := by
  refine ⟨?_, ?_, ?_, by simp [scaffoldSchemaFiles],
    scaffoldEntityTemplates_length workspace spec⟩
  · simp only [generateAppScaffold, scaffoldOps_run]
  · simp only [generateAppScaffold, scaffoldOps_run]
  · simp only [generateAppScaffoldPaths, scaffoldPageArtifacts,
      scaffoldTemplateArtifacts, scaffoldPageFiles, scaffoldSchemaFiles,
      scaffoldFixedTemplates, List.length_append, List.length_cons,
      List.length_map, List.length_nil, scaffoldEntityTemplates_length]
    omega

/-- C3: when every model response carries content that fails validation, the
engine makes exactly two model calls — the retry prompt appends the first
validation message — and still writes the last content to the target path,
returning that full path. -/
theorem C3_codegen_retry_bound (complete : String → String) (spec : Spec)
    (target : CodegenTarget) (outputRoot : String)
    (H : ∀ prompt : String, ∃ v, jsonParse (complete prompt) = some v ∧
      (validateCode (payloadContent v) (extname target.path)).isSome = true) :
    ∃ m content,
      generateFileWithLLM complete spec target outputRoot 1 none =
        { prompts := [buildCodegenPrompt spec target none,
                      buildCodegenPrompt spec target (some m)],
          written := [(joinPath outputRoot target.path, content)],
          result := .ok (joinPath outputRoot target.path) } ∧
      buildCodegenPrompt spec target (some m) =
        buildCodegenPrompt spec target none ++ "\n" ++
          ("Fix validation error: " ++ m) := by
  obtain ⟨v1, hv1, hval1⟩ := H (buildCodegenPrompt spec target none)
  obtain ⟨m1, hm1⟩ := Option.isSome_iff_exists.mp hval1
  obtain ⟨v2, hv2, hval2⟩ := H (buildCodegenPrompt spec target (some m1))
  obtain ⟨m2, hm2⟩ := Option.isSome_iff_exists.mp hval2
  refine ⟨m1, payloadContent v2, ?_, ?_⟩
  · rw [generateFileWithLLM]
    simp only [hv1, hm1]
    rw [dif_pos (by decide : (1:Nat) < 2)]
    rw [generateFileWithLLM]
    simp only [hv2, hm2]
    rw [dif_neg (by decide : ¬(2:Nat) < 2)]
  · unfold buildCodegenPrompt buildCodegenPromptLines
    rw [joinWith_append_single "\n" ("Fix validation error: " ++ m1) _ (by simp)]
    simp

/-- C3 witness: a stub that always returns a well-formed envelope with
invalid-JSON content, against a `.json` target: two calls, file written. -/
theorem C3_codegen_retry_bound_witness :
    (generateFileWithLLM invalidContentStub specOneEntity demoTargetJson
        "out" 1 none).prompts.length = 2 ∧
    (generateFileWithLLM invalidContentStub specOneEntity demoTargetJson
        "out" 1 none).result = .ok (joinPath "out" demoTargetJson.path) := by
  obtain ⟨m, c, heq, -⟩ :=
    C3_codegen_retry_bound invalidContentStub specOneEntity demoTargetJson "out"
      (fun prompt => ⟨_, rfl, rfl⟩)
  rw [heq]
  exact ⟨rfl, rfl⟩

/-- C6 (counterexample): an unparsable model response makes the Codegen
Engine's bare `JSON.parse` throw, so the error propagates to the caller
instead of being recovered locally. -/
theorem C6_counterexample :
    (generateFileWithLLM unparsableStub specOneEntity demoTargetJson
        "out" 1 none).result = .error "Unexpected token in JSON" := by
  rw [generateFileWithLLM]
  rfl

/-- C6 (amended): the route handlers do parse defensively — a direct parse
is used when it succeeds, the first brace span is extracted and parsed
otherwise, and the hardcoded default specification stands in when both fail —
but the Codegen Engine parses each per-target response with a bare
`JSON.parse`, so an unparsable response there propagates an error. -/
theorem C6_defensive_parsing :
    (∀ raw v, jsonParse raw = some v → safeJsonParse raw = some v) ∧
    safeJsonParse "xx \x7b\"a\":1\x7d yy" = some (Json.obj [("a", Json.num "1")]) ∧
    safeJsonParse "no braces at all" = none ∧
    resolveSpecJson "no braces at all" = buildSpecFallback ∧
    (∀ raw, safeJsonParse raw = none → resolveSpecJson raw = buildSpecFallback) ∧
    (generateFileWithLLM (fun _ => "still not json") specOneEntity
        demoTargetJson "out" 1 none).result = .error "Unexpected token in JSON" := by
  refine ⟨?_, rfl, rfl, rfl, ?_, ?_⟩
  · intro raw v h
    unfold safeJsonParse
    rw [h]
  · intro raw h
    unfold resolveSpecJson
    rw [h]
    rfl
  · rw [generateFileWithLLM]
    rfl

/-- C6 witness: the direct-parse branch and the fallback branch at concrete
inputs. -/
theorem C6_defensive_parsing_witness :
    safeJsonParse "\x7b\"k\":true\x7d" = some (Json.obj [("k", Json.bool true)]) ∧
    resolveSpecJson "????" = buildSpecFallback := by
  constructor
  · exact C6_defensive_parsing.1 "\x7b\"k\":true\x7d" _ rfl
  · exact C6_defensive_parsing.2.2.2.2.1 "????" rfl

/-- C2: a run starts `running` with one `pending` step per plan entry whose
names are the plan entries; a successful orchestration ends `ready` with all
steps `completed`; any failure ends `failed` with all steps `failed` and the
original error re-raised (in particular the external verification error);
the final status is always one of the two terminal states. -/
theorem C2_run_lifecycle (cwd buildId runId problem : String)
    (result : GenieResult) (stat : String → Bool) (ev : Bool) :
    ((runOrchestrator cwd buildId runId problem result stat ev).runInitial.status =
        "running" ∧
      (runOrchestrator cwd buildId runId problem result stat ev).runInitial.steps =
        result.plan.map (fun s => { name := s, status := "pending" })) ∧
    ((runOrchestrator cwd buildId runId problem result stat ev).run.steps.map
        StepRec.name = result.plan) ∧
    ((runOrchestrator cwd buildId runId problem result stat ev).outcome.isOk = true →
      (runOrchestrator cwd buildId runId problem result stat ev).run.status =
        "ready" ∧
      ∀ st ∈ (runOrchestrator cwd buildId runId problem result stat ev).run.steps,
        st.status = "completed") ∧
    ((runOrchestrator cwd buildId runId problem result stat ev).outcome.isOk = false →
      (runOrchestrator cwd buildId runId problem result stat ev).run.status =
        "failed" ∧
      (∃ e, (runOrchestrator cwd buildId runId problem result stat ev).outcome =
        .error e) ∧
      ∀ st ∈ (runOrchestrator cwd buildId runId problem result stat ev).run.steps,
        st.status = "failed") ∧
    ((∀ p, stat p = true) → ev = false →
      (runOrchestrator cwd buildId runId problem result stat ev).outcome =
        .error "Command failed: npm run verify:generated") ∧
    ((runOrchestrator cwd buildId runId problem result stat ev).run.status =
        "ready" ∨
      (runOrchestrator cwd buildId runId problem result stat ev).run.status =
        "failed") := by
  rcases runOrchestrator_case_split cwd buildId runId problem result stat ev with
    ⟨e, hv, hrun, hout⟩ | ⟨hv, hev, hrun, hout⟩ | ⟨hv, hev, hrun, hout⟩
  · refine ⟨⟨rfl, rfl⟩, ?_, ?_, ?_, ?_, ?_⟩
    · rw [hrun]
      simp [List.map_map, Function.comp_def]
    · intro h
      rw [hout] at h
      simp [Except.isOk, Except.toBool] at h
    · intro _
      refine ⟨by rw [hrun], ⟨e, hout⟩, ?_⟩
      rw [hrun]
      intro st hst
      obtain ⟨s, _, rfl⟩ := List.mem_map.mp hst
      rfl
    · intro hall _
      have hok : validateArtifacts stat
          (orchValidatedPaths (orchWorkspace cwd buildId result)
            (specOfResult result)) = .ok () :=
        (validateArtifacts_ok_iff _ _).mpr (fun p _ => hall p)
      rw [hok] at hv
      simp at hv
    · right
      rw [hrun]
  · refine ⟨⟨rfl, rfl⟩, ?_, ?_, ?_, ?_, ?_⟩
    · rw [hrun]
      simp [List.map_map, Function.comp_def]
    · intro _
      refine ⟨by rw [hrun], ?_⟩
      rw [hrun]
      intro st hst
      obtain ⟨s, _, rfl⟩ := List.mem_map.mp hst
      rfl
    · intro h
      rw [hout] at h
      simp [Except.isOk, Except.toBool] at h
    · intro _ hev'
      rw [hev] at hev'
      exact absurd hev' (by decide)
    · left
      rw [hrun]
  · refine ⟨⟨rfl, rfl⟩, ?_, ?_, ?_, ?_, ?_⟩
    · rw [hrun]
      simp [List.map_map, Function.comp_def]
    · intro h
      rw [hout] at h
      simp [Except.isOk, Except.toBool] at h
    · intro _
      refine ⟨by rw [hrun], ⟨_, hout⟩, ?_⟩
      rw [hrun]
      intro st hst
      obtain ⟨s, _, rfl⟩ := List.mem_map.mp hst
      rfl
    · intro _ _
      exact hout
    · right
      rw [hrun]

/-- C2 witness: the three-step plan at a concrete input — all stats pass and
the external verification passes (`ready`) or fails (`failed`, with the
verification error observable). -/
theorem C2_run_lifecycle_witness :
    (runOrchestrator "" "b1" "r1" "p" demoResult (fun _ => true) true).run.status =
      "ready" ∧
    (runOrchestrator "" "b1" "r1" "p" demoResult (fun _ => true) false).run.status =
      "failed" ∧
    (runOrchestrator "" "b1" "r1" "p" demoResult (fun _ => true) false).outcome =
      .error "Command failed: npm run verify:generated" := by
  refine ⟨?_, ?_, ?_⟩
  · exact ((C2_run_lifecycle "" "b1" "r1" "p" demoResult (fun _ => true) true).2.2.1
      (by decide)).1
  · exact ((C2_run_lifecycle "" "b1" "r1" "p" demoResult (fun _ => true) false).2.2.2.1
      (by decide)).1
  · exact (C2_run_lifecycle "" "b1" "r1" "p" demoResult (fun _ => true) false).2.2.2.2.1
      (fun p => rfl) rfl

/-- C1 (counterexample): at a concrete run, the path recorded as the
`readme` artifact is not among the paths handed to `validateArtifacts` —
the orchestrator verifies only the manifest, spec, generated and app
artifact paths. -/
theorem C1_counterexample :
    ("readme", joinPath (orchWorkspace "" "b1" demoResult) "README.md") ∈
      (runOrchestrator "" "b1" "r1" "p" demoResult (fun _ => true) true).artifacts ∧
    joinPath (orchWorkspace "" "b1" demoResult) "README.md" ∉
      (runOrchestrator "" "b1" "r1" "p" demoResult (fun _ => true) true).validated := by
  decide

/-- C1 (amended): after the generation stages the orchestrator stat-checks
the manifest and spec paths together with every generated and app artifact
path — all failures are collected, and any failure raises one aggregate
error whose text names every missing path and sends the run to `failed` —
but the recorded `readme` artifact path is not among the verified paths. -/
theorem C1_artifact_validation (cwd buildId runId problem : String)
    (result : GenieResult) (stat : String → Bool) (ev : Bool) :
    (runOrchestrator cwd buildId runId problem result stat ev).artifacts =
      orchArtifactRecords (orchWorkspace cwd buildId result) (specOfResult result) ∧
    (runOrchestrator cwd buildId runId problem result stat ev).validated =
      orchValidatedPaths (orchWorkspace cwd buildId result) (specOfResult result) ∧
    ("readme", joinPath (orchWorkspace cwd buildId result) "README.md") ∈
      (runOrchestrator cwd buildId runId problem result stat ev).artifacts ∧
    joinPath (orchWorkspace cwd buildId result) "README.md" ∉
      (runOrchestrator cwd buildId runId problem result stat ev).validated ∧
    (validateArtifacts stat
        (runOrchestrator cwd buildId runId problem result stat ev).validated =
        .ok () ↔
      ∀ p ∈ (runOrchestrator cwd buildId runId problem result stat ev).validated,
        stat p = true) ∧
    (∀ p ∈ (runOrchestrator cwd buildId runId problem result stat ev).validated,
      stat p = false →
        (runOrchestrator cwd buildId runId problem result stat ev).run.status =
          "failed" ∧
        ∃ e, (runOrchestrator cwd buildId runId problem result stat ev).outcome =
          .error e ∧ p.data <:+: e.data) := by
  refine ⟨rfl, rfl, ?_, ?_, validateArtifacts_ok_iff stat _, ?_⟩
  · rw [runOrchestrator_artifacts]
    unfold orchArtifactRecords
    simp
  · rw [runOrchestrator_validated]
    exact readme_not_in_validated _ _
  · intro p hp hs
    rw [runOrchestrator_validated] at hp
    obtain ⟨e, he, hinf⟩ := validateArtifacts_missing stat _ p hp hs
    rcases runOrchestrator_case_split cwd buildId runId problem result stat ev with
      ⟨e', hv, hrun, hout⟩ | ⟨hv, _, _, _⟩ | ⟨hv, _, _, _⟩
    · have hee : e' = e := by
        rw [hv] at he
        exact Except.error.inj he
      subst hee
      exact ⟨by rw [hrun], e', hout, hinf⟩
    · rw [hv] at he
      exact absurd he (by simp)
    · rw [hv] at he
      exact absurd he (by simp)

/-- C1 witness: with a stat collaborator that fails every path, the concrete
run ends `failed` and the aggregate error names the manifest path. -/
theorem C1_artifact_validation_witness :
    (runOrchestrator "" "b1" "r1" "p" demoResult (fun _ => false) true).run.status =
      "failed" := by
  have h :=
    (C1_artifact_validation "" "b1" "r1" "p" demoResult (fun _ => false) true).2.2.2.2.2
  exact (h (joinPath (orchWorkspace "" "b1" demoResult) "manifest.json")
    (by decide) rfl).1

/-- C4 witness: the `.json` iff instantiated at a concrete parsable
content. -/
theorem C4_validator_soundness_witness : validateCode "true" ".json" = none :=
  (C4_validator_soundness.2.2.2.2.2 "true").mpr rfl

/-- C5 witness: the amended statement at a concrete workspace and a
one-entity, one-page specification: the write prefix is as stated and the
assembled list has `17 + 1 + 4 = 22` entries. -/
theorem C5_scaffold_completeness_witness :
    (generateAppScaffold "ws" specOneEntity).written =
      scaffoldWrittenBeforeFailure "ws" specOneEntity ∧
    (generateAppScaffoldPaths "ws" specOneEntity).length = 22 := by
  refine ⟨(C5_scaffold_completeness "ws" specOneEntity).2.1, ?_⟩
  rw [(C5_scaffold_completeness "ws" specOneEntity).2.2.1]
  decide
